import Mathlib

/-!
Verification of the financial-data normalization and credit-analysis engine
of the pitch-pulse repository.

The development shallowly embeds the two core components:

* the Fact Normalizer (`normalizeFinancials` in the SEC edge function),
  which turns a raw SEC company-facts structure plus a fiscal-year range
  into a dense per-year table of recognized financial line items; and
* the Credit Analyzer (`useCreditAnalysis` and its helpers), which derives
  credit ratios, risk flags, peer comparisons and a composite score from
  that table.

JavaScript numbers are modelled as rationals (`ℚ`); JavaScript `null` and
`undefined` for numeric fields are both modelled as `Option.none`.
JavaScript truthiness tests on nullable numbers (`x && y ? ... : ...`)
are translated explicitly: a nullable number is falsy when it is `none`
or `some 0`.  JavaScript `Map` objects are modelled as association lists
with insertion-order semantics (`jsGet`/`jsSet`), and `Array.sort`
(a stable sort) is modelled by the stable `List.insertionSort`.
Display-only string fields that are built by numeric interpolation
(`description`, `impact`, `formula`) are omitted from the records; no
claim concerns them.
-/

/-- Three-level ratio status, as in the `CreditRatio` interface. -/
inductive RatioStatus
  | good
  | warning
  | critical
deriving DecidableEq, Repr

/-- Four-level risk-flag severity, as in the `RiskFlag` interface. -/
inductive Severity
  | low
  | medium
  | high
  | critical
deriving DecidableEq, Repr

/-- Five-level overall score category, as in the `CreditAnalysis` interface. -/
inductive ScoreCategory
  | excellent
  | good
  | fair
  | poor
  | critical
deriving DecidableEq, Repr

/-- Three-way peer-comparison status. -/
inductive PeerStatus
  | above
  | at_
  | below
deriving DecidableEq, Repr

/-- `FiscalYearData` from `src/types/financials.ts`: one dense record per
fiscal year, every financial field nullable.  The edge-function variant of
this interface lacks `cashAndEquivalents`; records built by the Normalizer
therefore carry `none` there (reading the absent property yields
`undefined`, which behaves as `null` downstream). -/
structure FiscalYearData where
  year : Int
  revenue : Option ℚ
  netIncome : Option ℚ
  totalAssets : Option ℚ
  totalLiabilities : Option ℚ
  stockholdersEquity : Option ℚ
  operatingCashFlow : Option ℚ
  ebitda : Option ℚ
  grossProfit : Option ℚ
  operatingIncome : Option ℚ
  longTermDebt : Option ℚ
  currentAssets : Option ℚ
  currentLiabilities : Option ℚ
  cashAndEquivalents : Option ℚ
deriving DecidableEq, Repr

/-- `MetricData`: the retained raw-observation projection
`{end, val, fy, form, filed}`. -/
structure MetricData where
  end_ : String
  val : ℚ
  fy : Int
  form : String
  filed : String
deriving DecidableEq, Repr

/-- `NormalizedFinancials`: the Normalizer's output.  `rawMetrics` is a
JavaScript object keyed by concept name, modelled as an insertion-ordered
association list. -/
structure NormalizedFinancials where
  cik : String
  entityName : String
  ticker : String
  sicCode : Option String
  fiscalYears : List FiscalYearData
  rawMetrics : List (String × List MetricData)
deriving DecidableEq, Repr

/-- One raw SEC observation (an element of `units[unit]` in
`SECCompanyFacts`).  The fields `start`, `accn` and `fp` of the source
interface are never read by the Normalizer and are kept here only so that
observations are full records. -/
structure RawObs where
  start_ : Option String
  end_ : String
  val : ℚ
  accn : String
  fy : Int
  fp : String
  form : String
  filed : String
deriving DecidableEq, Repr

/-- The per-concept payload of `SECCompanyFacts`: a label, a description
and unit-keyed observation lists.  Only `units` is ever read. -/
structure ConceptData where
  label : String
  description : String
  units : List (String × List RawObs)
deriving DecidableEq, Repr

/-- `SECCompanyFacts`: raw company facts.  `us_gaap` models
`facts['us-gaap'] || {}` (an absent key is the empty object, i.e. `[]`),
as an insertion-ordered association list of concepts. -/
structure SECCompanyFacts where
  cik : Nat
  entityName : String
  us_gaap : List (String × ConceptData)
deriving DecidableEq, Repr

/-- JavaScript `Map.get` / object indexing on an association list. -/
def jsGet {κ ν : Type} [DecidableEq κ] : List (κ × ν) → κ → Option ν
  | [], _ => none
  | (k', v) :: rest, k => if k' = k then some v else jsGet rest k

/-- JavaScript `Map.set` / object assignment on an association list:
replaces the value in place when the key is present (keeping insertion
order), appends otherwise. -/
def jsSet {κ ν : Type} [DecidableEq κ] : List (κ × ν) → κ → ν → List (κ × ν)
  | [], k, v => [(k, v)]
  | (k', v') :: rest, k, v =>
      if k' = k then (k', v) :: rest else (k', v') :: jsSet rest k v

/-- The inclusive integer range `[a, b]`, in ascending order
(`for (let year = a; year <= b; year++)`). -/
def rangeInts (a b : Int) : List Int :=
  (List.range (b - a + 1).toNat).map (fun i : ℕ => a + (i : Int))

/-- `String(cik).padStart(10, '0')`. -/
def padCIK (n : Nat) : String :=
  let s := toString n
  String.mk (List.replicate (10 - s.length) '0') ++ s

/-- The normalized field names that `METRIC_MAPPING` can target.  Neither
`ebitda` nor `cashAndEquivalents` appears here. -/
inductive MField
  | revenue
  | netIncome
  | totalAssets
  | totalLiabilities
  | stockholdersEquity
  | operatingCashFlow
  | grossProfit
  | operatingIncome
  | longTermDebt
  | currentAssets
  | currentLiabilities
deriving DecidableEq, Repr

/-- `METRIC_MAPPING`: the fixed table from GAAP concept names to
normalized field names. -/
def metricMapping : String → Option MField
  | "Revenues" => some .revenue
  | "RevenueFromContractWithCustomerExcludingAssessedTax" => some .revenue
  | "SalesRevenueNet" => some .revenue
  | "NetIncomeLoss" => some .netIncome
  | "Assets" => some .totalAssets
  | "Liabilities" => some .totalLiabilities
  | "StockholdersEquity" => some .stockholdersEquity
  | "StockholdersEquityIncludingPortionAttributableToNoncontrollingInterest" =>
      some .stockholdersEquity
  | "NetCashProvidedByUsedInOperatingActivities" => some .operatingCashFlow
  | "GrossProfit" => some .grossProfit
  | "OperatingIncomeLoss" => some .operatingIncome
  | "LongTermDebt" => some .longTermDebt
  | "LongTermDebtNoncurrent" => some .longTermDebt
  | "AssetsCurrent" => some .currentAssets
  | "LiabilitiesCurrent" => some .currentLiabilities
  | _ => none

/-- Read a mapped field of a (partial) fiscal-year record
(`existing[normalizedName]`). -/
def getField (r : FiscalYearData) : MField → Option ℚ
  | .revenue => r.revenue
  | .netIncome => r.netIncome
  | .totalAssets => r.totalAssets
  | .totalLiabilities => r.totalLiabilities
  | .stockholdersEquity => r.stockholdersEquity
  | .operatingCashFlow => r.operatingCashFlow
  | .grossProfit => r.grossProfit
  | .operatingIncome => r.operatingIncome
  | .longTermDebt => r.longTermDebt
  | .currentAssets => r.currentAssets
  | .currentLiabilities => r.currentLiabilities

/-- Assign a mapped field of a (partial) fiscal-year record
(`existing[normalizedName] = value.val`). -/
def setField (r : FiscalYearData) (v : ℚ) : MField → FiscalYearData
  | .revenue => { r with revenue := some v }
  | .netIncome => { r with netIncome := some v }
  | .totalAssets => { r with totalAssets := some v }
  | .totalLiabilities => { r with totalLiabilities := some v }
  | .stockholdersEquity => { r with stockholdersEquity := some v }
  | .operatingCashFlow => { r with operatingCashFlow := some v }
  | .grossProfit => { r with grossProfit := some v }
  | .operatingIncome => { r with operatingIncome := some v }
  | .longTermDebt => { r with longTermDebt := some v }
  | .currentAssets => { r with currentAssets := some v }
  | .currentLiabilities => { r with currentLiabilities := some v }

/-- The fresh partial record `{ year }`: only the year set, every other
field still undefined. -/
def emptyFY (y : Int) : FiscalYearData :=
  { year := y, revenue := none, netIncome := none, totalAssets := none,
    totalLiabilities := none, stockholdersEquity := none,
    operatingCashFlow := none, ebitda := none, grossProfit := none,
    operatingIncome := none, longTermDebt := none, currentAssets := none,
    currentLiabilities := none, cashAndEquivalents := none }

/-- The eligibility filter applied to every observation:
`v.form === '10-K' && v.fy >= fiscalYearStart && v.fy <= fiscalYearEnd`. -/
def relevantObs (s e : Int) (o : RawObs) : Bool :=
  o.form == "10-K" && decide (s ≤ o.fy) && decide (o.fy ≤ e)

/-- The raw-metric projection `{end, val, fy, form, filed}`. -/
def toMetricData (v : RawObs) : MetricData :=
  { end_ := v.end_, val := v.val, fy := v.fy, form := v.form,
    filed := v.filed }

/-- The body of the inner observation loop of `normalizeFinancials`: apply
the 10-K/range filter, fetch-or-create the year's partial record, and set
the mapped field only if it is still undefined (first match wins). -/
def processValue (s e : Int) (name : MField)
    (yd : List (Int × FiscalYearData)) (v : RawObs) :
    List (Int × FiscalYearData) :=
  if relevantObs s e v then
    let existing := (jsGet yd v.fy).getD (emptyFY v.fy)
    if getField existing name = none then
      jsSet yd v.fy (setField existing v.val name)
    else yd
  else yd

/-- The Normalizer's loop state: the `rawMetrics` object under
construction and the `yearData` map. -/
structure NState where
  raw : List (String × List MetricData)
  yd : List (Int × FiscalYearData)

/-- The body of the per-concept loop of `normalizeFinancials`: store the
filtered raw observation list when the concept has any USD values, and
fold the mapped-field update over all USD observations when the concept
is recognized. -/
def processConcept (s e : Int) (st : NState)
    (entry : String × ConceptData) : NState :=
  let usdValues := (jsGet entry.2.units "USD").getD []
  let raw' :=
    if usdValues.length > 0 then
      jsSet st.raw entry.1 ((usdValues.filter (relevantObs s e)).map toMetricData)
    else st.raw
  let yd' :=
    match metricMapping entry.1 with
    | some name => usdValues.foldl (processValue s e name) st.yd
    | none => st.yd
  ⟨raw', yd'⟩

/-- The final per-year conversion of `normalizeFinancials`: every mapped
field coalesced with `?? null` (the identity on our `Option` model),
`ebitda` explicitly null, and `cashAndEquivalents` absent from the
constructed object (hence `none`).  `year` is `data.year || 0`, which on
integers is the identity (`0 || 0` is `0`). -/
def finalizeFY (p : FiscalYearData) : FiscalYearData :=
  { year := p.year, revenue := p.revenue, netIncome := p.netIncome,
    totalAssets := p.totalAssets, totalLiabilities := p.totalLiabilities,
    stockholdersEquity := p.stockholdersEquity,
    operatingCashFlow := p.operatingCashFlow, ebitda := none,
    grossProfit := p.grossProfit, operatingIncome := p.operatingIncome,
    longTermDebt := p.longTermDebt, currentAssets := p.currentAssets,
    currentLiabilities := p.currentLiabilities, cashAndEquivalents := none }

/-- `normalizeFinancials` from the SEC edge function: initialize one
partial record per year of `[fyStart, fyEnd]`, fold the concept loop over
the raw facts, then sort the collected records ascending by year
(`(a.year||0) - (b.year||0)`, a stable sort on an insertion-ordered map)
and finalize each. -/
def normalizeFinancials (facts : SECCompanyFacts) (ticker : String)
    (sicCode : Option String) (fyStart fyEnd : Int) : NormalizedFinancials :=
  let init : List (Int × FiscalYearData) :=
    (rangeInts fyStart fyEnd).map (fun y => (y, emptyFY y))
  let st := facts.us_gaap.foldl (processConcept fyStart fyEnd) ⟨[], init⟩
  let fiscalYears :=
    (List.insertionSort (fun a b => a.year ≤ b.year) (st.yd.map Prod.snd)).map
      finalizeFY
  { cik := padCIK facts.cik, entityName := facts.entityName,
    ticker := ticker.toUpper, sicCode := sicCode,
    fiscalYears := fiscalYears, rawMetrics := st.raw }

/-- Benchmark tuple per 2-character SIC prefix. -/
structure Benchmarks where
  currentRatio : ℚ
  debtToEquity : ℚ
  grossMargin : ℚ
  netMargin : ℚ
deriving DecidableEq, Repr

/-- The rows of `INDUSTRY_BENCHMARKS` keyed by SIC prefix. -/
def industryBenchmarks : String → Option Benchmarks
  | "73" => some ⟨1.8, 0.5, 0.45, 0.12⟩
  | "35" => some ⟨2.0, 0.6, 0.35, 0.08⟩
  | "36" => some ⟨2.2, 0.4, 0.42, 0.10⟩
  | "28" => some ⟨1.5, 0.7, 0.55, 0.15⟩
  | "60" => some ⟨1.2, 8.0, 0.70, 0.20⟩
  | "62" => some ⟨1.5, 3.0, 0.65, 0.18⟩
  | "20" => some ⟨1.4, 0.8, 0.28, 0.05⟩
  | "49" => some ⟨0.9, 1.2, 0.40, 0.10⟩
  | _ => none

/-- `INDUSTRY_BENCHMARKS.default`. -/
def defaultBenchmarks : Benchmarks := ⟨1.5, 1.0, 0.35, 0.08⟩

/-- `getBenchmarks`: `!sicCode` is true for both `null` and the empty
string; otherwise look up the 2-character SIC prefix with fallback. -/
def getBenchmarks (sicCode : Option String) : Benchmarks :=
  match sicCode with
  | none => defaultBenchmarks
  | some s =>
      if s = "" then defaultBenchmarks
      else (industryBenchmarks (s.take 2)).getD defaultBenchmarks

/-- The `{ good, warning }` threshold-multiplier pair passed to
`calculateRatioStatus`. -/
structure Thresholds where
  good : ℚ
  warning : ℚ
deriving DecidableEq, Repr

/-- `calculateRatioStatus`: null is `warning`; otherwise compare against
`benchmark × good` and `benchmark × warning`, with the comparison
direction inverted for lower-is-better ratios. -/
def calculateRatioStatus (value : Option ℚ) (benchmark : ℚ)
    (higherIsBetter : Bool) (t : Thresholds) : RatioStatus :=
  match value with
  | none => .warning
  | some v =>
    if higherIsBetter then
      if v ≥ benchmark * t.good then .good
      else if v ≥ benchmark * t.warning then .warning
      else .critical
    else
      if v ≤ benchmark * t.good then .good
      else if v ≤ benchmark * t.warning then .warning
      else .critical

/-- `CreditRatio` without its display-only `description`/`formula`
string constants. -/
structure CreditRatio where
  name : String
  value : Option ℚ
  benchmark : ℚ
  status : RatioStatus
deriving DecidableEq, Repr

/-- `RiskFlag` without its display-only interpolated
`description`/`impact` strings. -/
structure RiskFlag where
  id : String
  severity : Severity
  category : String
  title : String
deriving DecidableEq, Repr

/-- `PeerComparison`. -/
structure PeerComparison where
  metric : String
  company : Option ℚ
  peerAverage : ℚ
  percentile : Option ℚ
  status : PeerStatus
deriving DecidableEq, Repr

/-- `CreditAnalysis`. -/
structure CreditAnalysis where
  overallScore : ℚ
  scoreCategory : ScoreCategory
  ratios : List CreditRatio
  riskFlags : List RiskFlag
  peerComparisons : List PeerComparison
deriving DecidableEq, Repr

/-- `[...data.fiscalYears].sort((a, b) => b.year - a.year)`: stable sort,
descending by year. -/
def sortYearsDesc (l : List FiscalYearData) : List FiscalYearData :=
  List.insertionSort (fun a b => b.year ≤ a.year) l

/-- `getLatestYearData`: the `{ year, data }` pair for the most recent
fiscal year, or null when there are no fiscal years. -/
def getLatestYearData (d : NormalizedFinancials) :
    Option (Int × FiscalYearData) :=
  match sortYearsDesc d.fiscalYears with
  | [] => none
  | x :: _ => some (x.year, x)

/-- `getPreviousYearData`: the second most recent fiscal year, or null
when there are fewer than two. -/
def getPreviousYearData (d : NormalizedFinancials) :
    Option (Int × FiscalYearData) :=
  match sortYearsDesc d.fiscalYears with
  | _ :: y :: _ => some (y.year, y)
  | _ => none

/-- `totalAssets && totalLiabilities ? totalAssets - totalLiabilities :
null` — the equity approximation (0 is falsy). -/
def equityOf (r : FiscalYearData) : Option ℚ :=
  match r.totalAssets, r.totalLiabilities with
  | some ta, some tl => if ta = 0 ∨ tl = 0 then none else some (ta - tl)
  | _, _ => none

/-- `currentAssets && currentLiabilities ? currentAssets /
currentLiabilities : null`. -/
def currentRatioOf (r : FiscalYearData) : Option ℚ :=
  match r.currentAssets, r.currentLiabilities with
  | some ca, some cl => if ca = 0 ∨ cl = 0 then none else some (ca / cl)
  | _, _ => none

/-- `longTermDebt && equity && equity > 0 ? longTermDebt / equity :
null`. -/
def debtToEquityOf (r : FiscalYearData) : Option ℚ :=
  match r.longTermDebt, equityOf r with
  | some ltd, some eqv =>
      if ltd = 0 ∨ eqv = 0 then none
      else if 0 < eqv then some (ltd / eqv) else none
  | _, _ => none

/-- `revenue && netIncome ? netIncome / revenue : null`. -/
def netMarginOf (r : FiscalYearData) : Option ℚ :=
  match r.revenue, r.netIncome with
  | some rev, some ni => if rev = 0 ∨ ni = 0 then none else some (ni / rev)
  | _, _ => none

/-- `totalAssets && netIncome ? netIncome / totalAssets : null`. -/
def roaOf (r : FiscalYearData) : Option ℚ :=
  match r.totalAssets, r.netIncome with
  | some ta, some ni => if ta = 0 ∨ ni = 0 then none else some (ni / ta)
  | _, _ => none

/-- `equity && netIncome && equity > 0 ? netIncome / equity : null`. -/
def roeOf (r : FiscalYearData) : Option ℚ :=
  match equityOf r, r.netIncome with
  | some eqv, some ni =>
      if eqv = 0 ∨ ni = 0 then none
      else if 0 < eqv then some (ni / eqv) else none
  | _, _ => none

/-- `currentAssets && currentLiabilities && cashAndEquivalents ?
(cashAndEquivalents + (currentAssets - cashAndEquivalents) * 0.5) /
currentLiabilities : null`. -/
def quickRatioOf (r : FiscalYearData) : Option ℚ :=
  match r.currentAssets, r.currentLiabilities, r.cashAndEquivalents with
  | some ca, some cl, some c =>
      if ca = 0 ∨ cl = 0 ∨ c = 0 then none
      else some ((c + (ca - c) * 0.5) / cl)
  | _, _, _ => none

/-- The six `ratios.push` entries of `useCreditAnalysis`, in order. -/
def buildRatios (b : Benchmarks) (r : FiscalYearData) : List CreditRatio :=
  [ { name := "Current Ratio", value := currentRatioOf r,
      benchmark := b.currentRatio,
      status := calculateRatioStatus (currentRatioOf r) b.currentRatio
        true ⟨0.9, 0.6⟩ },
    { name := "Debt-to-Equity", value := debtToEquityOf r,
      benchmark := b.debtToEquity,
      status := calculateRatioStatus (debtToEquityOf r) b.debtToEquity
        false ⟨1.0, 1.5⟩ },
    { name := "Net Profit Margin", value := netMarginOf r,
      benchmark := b.netMargin,
      status := calculateRatioStatus (netMarginOf r) b.netMargin
        true ⟨0.8, 0.5⟩ },
    { name := "Return on Assets", value := roaOf r, benchmark := 0.05,
      status := calculateRatioStatus (roaOf r) 0.05 true ⟨1.0, 0.6⟩ },
    { name := "Return on Equity", value := roeOf r, benchmark := 0.15,
      status := calculateRatioStatus (roeOf r) 0.15 true ⟨0.9, 0.5⟩ },
    { name := "Quick Ratio", value := quickRatioOf r, benchmark := 1.0,
      status := calculateRatioStatus (quickRatioOf r) 1.0
        true ⟨0.9, 0.6⟩ } ]

/-- `if (currentRatio !== null && currentRatio < 1.0)` → liquidity flag;
severity `critical` when strictly below 0.5, else `high`. -/
def liquidityFlagOf (currentRatio : Option ℚ) : Option RiskFlag :=
  match currentRatio with
  | some v =>
      if v < 1 then
        some { id := "low-current-ratio",
               severity := if v < 0.5 then .critical else .high,
               category := "Liquidity", title := "Low Current Ratio" }
      else none
  | none => none

/-- `if (debtToEquity !== null && debtToEquity > benchmarks.debtToEquity *
1.5)` → leverage flag; `critical` above benchmark × 2.5, else `high`. -/
def leverageFlagOf (dte : Option ℚ) (bDte : ℚ) : Option RiskFlag :=
  match dte with
  | some v =>
      if v > bDte * 1.5 then
        some { id := "high-leverage",
               severity := if v > bDte * 2.5 then .critical else .high,
               category := "Leverage", title := "High Debt Levels" }
      else none
  | none => none

/-- Negative net margin → `critical` profitability flag; else net margin
below benchmark × 0.5 → `medium` flag. -/
def profitabilityFlagOf (nm : Option ℚ) (bNm : ℚ) : Option RiskFlag :=
  match nm with
  | some v =>
      if v < 0 then
        some { id := "negative-margin", severity := .critical,
               category := "Profitability", title := "Negative Profit Margin" }
      else if v < bNm * 0.5 then
        some { id := "low-margin", severity := .medium,
               category := "Profitability",
               title := "Below-Average Profit Margin" }
      else none
  | none => none

/-- `if (previous && revenue && previous.data.revenue)` (0 is falsy) then
flag a year-over-year revenue decline of more than 10%, `critical` beyond
20%. -/
def revenueDeclineFlagOf (previous : Option (Int × FiscalYearData))
    (revenue : Option ℚ) : Option RiskFlag :=
  match previous, revenue with
  | some p, some rev =>
      if rev = 0 then none
      else
        match p.2.revenue with
        | some prevRev =>
            if prevRev = 0 then none
            else
              let growth := (rev - prevRev) / prevRev
              if growth < -0.1 then
                some { id := "revenue-decline",
                       severity := if growth < -0.2 then .critical else .high,
                       category := "Growth", title := "Declining Revenue" }
              else none
        | none => none
  | _, _ => none

/-- `if (cashAndEquivalents && totalAssets)` (0 is falsy) then flag a
cash-to-total-assets ratio below 2%. -/
def cashFlagOf (cash totalAssets : Option ℚ) : Option RiskFlag :=
  match cash, totalAssets with
  | some c, some ta =>
      if c = 0 ∨ ta = 0 then none
      else if c / ta < 0.02 then
        some { id := "low-cash", severity := .high,
               category := "Liquidity", title := "Low Cash Reserves" }
      else none
  | _, _ => none

/-- `if (!revenue || !totalAssets || !totalLiabilities)` (0 is falsy) →
data-quality flag, severity `medium`. -/
def dataQualityFlagOf (rev ta tl : Option ℚ) : Option RiskFlag :=
  if rev = none ∨ rev = some 0 ∨ ta = none ∨ ta = some 0 ∨
     tl = none ∨ tl = some 0 then
    some { id := "incomplete-data", severity := .medium,
           category := "Data Quality", title := "Incomplete Financial Data" }
  else none

/-- The risk-flag rules of `useCreditAnalysis`, pushed in source order. -/
def buildRiskFlags (b : Benchmarks) (latest : FiscalYearData)
    (previous : Option (Int × FiscalYearData)) : List RiskFlag :=
  (liquidityFlagOf (currentRatioOf latest)).toList ++
  (leverageFlagOf (debtToEquityOf latest) b.debtToEquity).toList ++
  (profitabilityFlagOf (netMarginOf latest) b.netMargin).toList ++
  (revenueDeclineFlagOf previous latest.revenue).toList ++
  (cashFlagOf latest.cashAndEquivalents latest.totalAssets).toList ++
  (dataQualityFlagOf latest.revenue latest.totalAssets
    latest.totalLiabilities).toList

/-- `Math.min(99, Math.max(1, x))`. -/
def clampPercentile (x : ℚ) : ℚ := min 99 (max 1 x)

/-- The four `peerComparisons` entries, with the truthiness-guarded
percentile and status expressions translated literally. -/
def buildPeerComparisons (b : Benchmarks) (r : FiscalYearData) :
    List PeerComparison :=
  let currentRatio := currentRatioOf r
  let dte := debtToEquityOf r
  let nm := netMarginOf r
  let roa := roaOf r
  [ { metric := "Current Ratio", company := currentRatio,
      peerAverage := b.currentRatio,
      percentile :=
        match currentRatio with
        | some v =>
            if v = 0 then none
            else some (clampPercentile (v / b.currentRatio * 50))
        | none => none,
      status :=
        match currentRatio with
        | some v =>
            if v = 0 then .at_
            else if v ≥ b.currentRatio then .above else .below
        | none => .at_ },
    { metric := "Debt-to-Equity", company := dte,
      peerAverage := b.debtToEquity,
      percentile :=
        match dte with
        | some v => some (clampPercentile (100 - v / b.debtToEquity * 50))
        | none => none,
      status :=
        match dte with
        | some v => if v ≤ b.debtToEquity then .above else .below
        | none => .at_ },
    { metric := "Net Margin", company := nm, peerAverage := b.netMargin,
      percentile :=
        match nm with
        | some v =>
            if v = 0 then none
            else some (clampPercentile (v / b.netMargin * 50))
        | none => none,
      status :=
        match nm with
        | some v =>
            if v = 0 then .at_
            else if v ≥ b.netMargin then .above else .below
        | none => .at_ },
    { metric := "Return on Assets", company := roa, peerAverage := 0.05,
      percentile :=
        match roa with
        | some v =>
            if v = 0 then none
            else some (clampPercentile (v / 0.05 * 50))
        | none => none,
      status :=
        match roa with
        | some v =>
            if v = 0 then .at_
            else if v ≥ 0.05 then .above else .below
        | none => .at_ } ]

/-- `good` → 100, `warning` → 60, else 20. -/
def ratioPoints : RatioStatus → ℚ
  | .good => 100
  | .warning => 60
  | .critical => 20

/-- `critical` → 15, `high` → 10, `medium` → 5, else 2. -/
def severityPenalty : Severity → ℚ
  | .critical => 15
  | .high => 10
  | .medium => 5
  | .low => 2

/-- The category ladder applied to the clamped overall score. -/
def scoreCategoryOf (s : ℚ) : ScoreCategory :=
  if s ≥ 80 then .excellent
  else if s ≥ 65 then .good
  else if s ≥ 50 then .fair
  else if s ≥ 35 then .poor
  else .critical

/-- Everything `useCreditAnalysis` computes after the latest-year guard:
ratios, risk flags, peer comparisons, the clamped overall score
(mean of ratio points minus summed severity penalties) and its
category. -/
def analysisFor (d : NormalizedFinancials) (latest : Int × FiscalYearData) :
    CreditAnalysis :=
  let previous := getPreviousYearData d
  let benchmarks := getBenchmarks d.sicCode
  let ratios := buildRatios benchmarks latest.2
  let riskFlags := buildRiskFlags benchmarks latest.2 previous
  let peerComparisons := buildPeerComparisons benchmarks latest.2
  let ratioScores := ratios.map (fun r => ratioPoints r.status)
  let riskPenalties := (riskFlags.map (fun f => severityPenalty f.severity)).sum
  let averageRatioScore := ratioScores.sum / (ratioScores.length : ℚ)
  let overallScore := max 0 (min 100 (averageRatioScore - riskPenalties))
  { overallScore := overallScore,
    scoreCategory := scoreCategoryOf overallScore,
    ratios := ratios, riskFlags := riskFlags,
    peerComparisons := peerComparisons }

/-- `useCreditAnalysis`: null input or zero fiscal years yield no
analysis; otherwise the full analysis keyed off the latest year. -/
def useCreditAnalysis (data : Option NormalizedFinancials) :
    Option CreditAnalysis :=
  match data with
  | none => none
  | some d =>
    match getLatestYearData d with
    | none => none
    | some latest => some (analysisFor d latest)

/-! ### Characterization lemmas for the ratio computations -/

theorem currentRatioOf_none_iff (r : FiscalYearData) :
    currentRatioOf r = none ↔
      r.currentAssets = none ∨ r.currentAssets = some 0 ∨
      r.currentLiabilities = none ∨ r.currentLiabilities = some 0 := by
  obtain ⟨y, rev, ni, ta, tl, se, ocf, eb, gp, oi, ltd, ca, cl, cash⟩ := r
  rcases ca with _ | a <;> rcases cl with _ | b <;>
    simp [currentRatioOf] <;> tauto

theorem currentRatioOf_eq_some (r : FiscalYearData) (a b : ℚ)
    (hca : r.currentAssets = some a) (hcl : r.currentLiabilities = some b)
    (ha : a ≠ 0) (hb : b ≠ 0) : currentRatioOf r = some (a / b) := by
  simp [currentRatioOf, hca, hcl, ha, hb]

theorem equityOf_none_iff (r : FiscalYearData) :
    equityOf r = none ↔
      r.totalAssets = none ∨ r.totalAssets = some 0 ∨
      r.totalLiabilities = none ∨ r.totalLiabilities = some 0 := by
  obtain ⟨y, rev, ni, ta, tl, se, ocf, eb, gp, oi, ltd, ca, cl, cash⟩ := r
  rcases ta with _ | a <;> rcases tl with _ | b <;>
    simp [equityOf] <;> tauto

theorem equityOf_eq_some (r : FiscalYearData) (a b : ℚ)
    (hta : r.totalAssets = some a) (htl : r.totalLiabilities = some b)
    (ha : a ≠ 0) (hb : b ≠ 0) : equityOf r = some (a - b) := by
  simp [equityOf, hta, htl, ha, hb]

theorem debtToEquityOf_none_iff (r : FiscalYearData) :
    debtToEquityOf r = none ↔
      r.longTermDebt = none ∨ r.longTermDebt = some 0 ∨
      equityOf r = none ∨ ∃ e, equityOf r = some e ∧ e ≤ 0 := by
  rcases hltd : r.longTermDebt with _ | l <;>
    rcases heq : equityOf r with _ | e
  · simp [debtToEquityOf, hltd, heq]
  · simp [debtToEquityOf, hltd, heq]
  · simp [debtToEquityOf, hltd, heq]
  · by_cases hl : l = 0
    · simp [debtToEquityOf, hltd, heq, hl]
    · by_cases hpos : 0 < e
      · simp [debtToEquityOf, hltd, heq, hl, hpos.ne', hpos,
          not_le.mpr hpos]
      · have hle : e ≤ 0 := not_lt.mp hpos
        by_cases he : e = 0 <;>
          simp [debtToEquityOf, hltd, heq, hl, he, hpos, hle]

theorem debtToEquityOf_eq_some (r : FiscalYearData) (l e : ℚ)
    (hltd : r.longTermDebt = some l) (heq : equityOf r = some e)
    (hl : l ≠ 0) (he : 0 < e) : debtToEquityOf r = some (l / e) := by
  simp [debtToEquityOf, hltd, heq, hl, he.ne', he]

theorem netMarginOf_none_iff (r : FiscalYearData) :
    netMarginOf r = none ↔
      r.revenue = none ∨ r.revenue = some 0 ∨
      r.netIncome = none ∨ r.netIncome = some 0 := by
  obtain ⟨y, rev, ni, ta, tl, se, ocf, eb, gp, oi, ltd, ca, cl, cash⟩ := r
  rcases rev with _ | a <;> rcases ni with _ | b <;>
    simp [netMarginOf] <;> tauto

theorem netMarginOf_eq_some (r : FiscalYearData) (a b : ℚ)
    (hrev : r.revenue = some a) (hni : r.netIncome = some b)
    (ha : a ≠ 0) (hb : b ≠ 0) : netMarginOf r = some (b / a) := by
  simp [netMarginOf, hrev, hni, ha, hb]

theorem roaOf_none_iff (r : FiscalYearData) :
    roaOf r = none ↔
      r.totalAssets = none ∨ r.totalAssets = some 0 ∨
      r.netIncome = none ∨ r.netIncome = some 0 := by
  obtain ⟨y, rev, ni, ta, tl, se, ocf, eb, gp, oi, ltd, ca, cl, cash⟩ := r
  rcases ta with _ | a <;> rcases ni with _ | b <;>
    simp [roaOf] <;> tauto

theorem roaOf_eq_some (r : FiscalYearData) (a b : ℚ)
    (hta : r.totalAssets = some a) (hni : r.netIncome = some b)
    (ha : a ≠ 0) (hb : b ≠ 0) : roaOf r = some (b / a) := by
  simp [roaOf, hta, hni, ha, hb]

theorem roeOf_none_iff (r : FiscalYearData) :
    roeOf r = none ↔
      equityOf r = none ∨ (∃ e, equityOf r = some e ∧ e ≤ 0) ∨
      r.netIncome = none ∨ r.netIncome = some 0 := by
  rcases heq : equityOf r with _ | e <;>
    rcases hni : r.netIncome with _ | n
  · simp [roeOf, heq, hni]
  · simp [roeOf, heq, hni]
  · simp [roeOf, heq, hni]
  · by_cases hn : n = 0
    · simp [roeOf, heq, hni, hn]
    · by_cases hpos : 0 < e
      · simp [roeOf, heq, hni, hn, hpos.ne', hpos, not_le.mpr hpos]
      · have hle : e ≤ 0 := not_lt.mp hpos
        by_cases he : e = 0 <;>
          simp [roeOf, heq, hni, hn, he, hpos, hle]

theorem roeOf_eq_some (r : FiscalYearData) (e n : ℚ)
    (heq : equityOf r = some e) (hni : r.netIncome = some n)
    (he : 0 < e) (hn : n ≠ 0) : roeOf r = some (n / e) := by
  simp [roeOf, heq, hni, he.ne', hn, he]

theorem quickRatioOf_none_iff (r : FiscalYearData) :
    quickRatioOf r = none ↔
      r.currentAssets = none ∨ r.currentAssets = some 0 ∨
      r.currentLiabilities = none ∨ r.currentLiabilities = some 0 ∨
      r.cashAndEquivalents = none ∨ r.cashAndEquivalents = some 0 := by
  obtain ⟨y, rev, ni, ta, tl, se, ocf, eb, gp, oi, ltd, ca, cl, cash⟩ := r
  rcases ca with _ | a <;> rcases cl with _ | b <;> rcases cash with _ | c <;>
    simp [quickRatioOf] <;> tauto

theorem quickRatioOf_eq_some (r : FiscalYearData) (a b c : ℚ)
    (hca : r.currentAssets = some a) (hcl : r.currentLiabilities = some b)
    (hc : r.cashAndEquivalents = some c)
    (ha : a ≠ 0) (hb : b ≠ 0) (hc0 : c ≠ 0) :
    quickRatioOf r = some ((c + (0.5 : ℚ) * (a - c)) / b) := by
  have hm : (0.5 : ℚ) * (a - c) = (a - c) * (0.5 : ℚ) := mul_comm _ _
  simp [quickRatioOf, hca, hcl, hc, ha, hb, hc0, hm]

/-- C6: status classification — a null ratio value is always `warning`
(never `good`, never `critical`); for higher-is-better ratios,
`value ≥ benchmark × good` gives `good`, otherwise
`value ≥ benchmark × warning` gives `warning`, otherwise `critical`; for
lower-is-better ratios the comparison direction is inverted (`≤`). -/
theorem claim_C6_ratio_status (b : ℚ) (t : Thresholds) :
    (∀ hib : Bool, calculateRatioStatus none b hib t = .warning) ∧
    (∀ v : ℚ, calculateRatioStatus (some v) b true t =
      if v ≥ b * t.good then .good
      else if v ≥ b * t.warning then .warning
      else .critical) ∧
    (∀ v : ℚ, calculateRatioStatus (some v) b false t =
      if v ≤ b * t.good then .good
      else if v ≤ b * t.warning then .warning
      else .critical) :=
  ⟨fun _ => rfl, fun _ => rfl, fun _ => rfl⟩

/-- The record refuting claim C3 as stated: revenue 100 and net income 0
are both present and the denominator (revenue) is nonzero, yet the code
yields a null net margin because 0 is falsy in the `revenue && netIncome`
guard. -/
def c3Record : FiscalYearData :=
  { emptyFY 2023 with revenue := some 100, netIncome := some 0 }

/-- C3 counterexample: at `c3Record` the net margin is null although no
required input is null and the denominator is nonzero, refuting the
claimed "null exactly when an input is null or the denominator is zero". -/
theorem claim_C3_counterexample :
    ¬ (netMarginOf c3Record = none ↔
        (c3Record.revenue = none ∨ c3Record.netIncome = none ∨
         c3Record.revenue = some 0)) := by decide

/-- C3 (amended): each of the six ratios is null exactly when a required
input field is null **or zero** — the code treats 0 as missing — or, for
the equity-denominated ratios, when the approximated equity is not
strictly positive; otherwise the ratio equals its fixed formula (quick
ratio is `(cash + 0.5 × (currentAssets − cash)) / currentLiabilities`),
so a ratio is never computed against a zero denominator. -/
theorem claim_C3_ratio_nullability (r : FiscalYearData) :
    (currentRatioOf r = none ↔
      r.currentAssets = none ∨ r.currentAssets = some 0 ∨
      r.currentLiabilities = none ∨ r.currentLiabilities = some 0) ∧
    (∀ a b, r.currentAssets = some a → r.currentLiabilities = some b →
      a ≠ 0 → b ≠ 0 → currentRatioOf r = some (a / b)) ∧
    (netMarginOf r = none ↔
      r.revenue = none ∨ r.revenue = some 0 ∨
      r.netIncome = none ∨ r.netIncome = some 0) ∧
    (∀ a b, r.revenue = some a → r.netIncome = some b →
      a ≠ 0 → b ≠ 0 → netMarginOf r = some (b / a)) ∧
    (roaOf r = none ↔
      r.totalAssets = none ∨ r.totalAssets = some 0 ∨
      r.netIncome = none ∨ r.netIncome = some 0) ∧
    (∀ a b, r.totalAssets = some a → r.netIncome = some b →
      a ≠ 0 → b ≠ 0 → roaOf r = some (b / a)) ∧
    (debtToEquityOf r = none ↔
      r.longTermDebt = none ∨ r.longTermDebt = some 0 ∨
      equityOf r = none ∨ ∃ e, equityOf r = some e ∧ e ≤ 0) ∧
    (∀ l e, r.longTermDebt = some l → equityOf r = some e →
      l ≠ 0 → 0 < e → debtToEquityOf r = some (l / e)) ∧
    (roeOf r = none ↔
      equityOf r = none ∨ (∃ e, equityOf r = some e ∧ e ≤ 0) ∨
      r.netIncome = none ∨ r.netIncome = some 0) ∧
    (∀ e n, equityOf r = some e → r.netIncome = some n →
      0 < e → n ≠ 0 → roeOf r = some (n / e)) ∧
    (quickRatioOf r = none ↔
      r.currentAssets = none ∨ r.currentAssets = some 0 ∨
      r.currentLiabilities = none ∨ r.currentLiabilities = some 0 ∨
      r.cashAndEquivalents = none ∨ r.cashAndEquivalents = some 0) ∧
    (∀ a b c, r.currentAssets = some a → r.currentLiabilities = some b →
      r.cashAndEquivalents = some c → a ≠ 0 → b ≠ 0 → c ≠ 0 →
      quickRatioOf r = some ((c + (0.5 : ℚ) * (a - c)) / b)) :=
  ⟨currentRatioOf_none_iff r, fun a b h1 h2 h3 h4 =>
      currentRatioOf_eq_some r a b h1 h2 h3 h4,
   netMarginOf_none_iff r, fun a b h1 h2 h3 h4 =>
      netMarginOf_eq_some r a b h1 h2 h3 h4,
   roaOf_none_iff r, fun a b h1 h2 h3 h4 => roaOf_eq_some r a b h1 h2 h3 h4,
   debtToEquityOf_none_iff r, fun l e h1 h2 h3 h4 =>
      debtToEquityOf_eq_some r l e h1 h2 h3 h4,
   roeOf_none_iff r, fun e n h1 h2 h3 h4 => roeOf_eq_some r e n h1 h2 h3 h4,
   quickRatioOf_none_iff r, fun a b c h1 h2 h3 h4 h5 h6 =>
      quickRatioOf_eq_some r a b c h1 h2 h3 h4 h5 h6⟩

/-- A fully populated record used to instantiate the C3 theorem. -/
def c3WitnessRecord : FiscalYearData :=
  { emptyFY 2022 with
    revenue := some 200,
    netIncome := some 30,
    totalAssets := some 1000,
    totalLiabilities := some 400,
    longTermDebt := some 100,
    currentAssets := some 50,
    currentLiabilities := some 100,
    cashAndEquivalents := some 10 }

/-- C3 witness: the amended theorem applied at a concrete record. -/
theorem claim_C3_ratio_nullability_witness :
    currentRatioOf c3WitnessRecord = some ((50 : ℚ) / 100) ∧
    netMarginOf c3WitnessRecord = some ((30 : ℚ) / 200) ∧
    debtToEquityOf c3WitnessRecord = some ((100 : ℚ) / (1000 - 400)) ∧
    quickRatioOf c3WitnessRecord =
      some (((10 : ℚ) + (0.5 : ℚ) * (50 - 10)) / 100) := by
  obtain ⟨h1, h2, h3, h4, h5, h6, h7, h8, h9, h10, h11, h12⟩ :=
    claim_C3_ratio_nullability c3WitnessRecord
  refine ⟨h2 50 100 rfl rfl (by norm_num) (by norm_num),
          h4 200 30 rfl rfl (by norm_num) (by norm_num),
          h8 100 (1000 - 400) rfl rfl (by norm_num) (by norm_num),
          h12 50 100 10 rfl rfl rfl (by norm_num) (by norm_num)
            (by norm_num)⟩

/-! ### Helpers about the analyzer's top level -/

theorem useCreditAnalysis_eq_some (d : NormalizedFinancials)
    (latest : Int × FiscalYearData) (hl : getLatestYearData d = some latest) :
    useCreditAnalysis (some d) = some (analysisFor d latest) := by
  simp [useCreditAnalysis, hl]

theorem analysisFor_riskFlags (d : NormalizedFinancials)
    (latest : Int × FiscalYearData) :
    (analysisFor d latest).riskFlags =
      buildRiskFlags (getBenchmarks d.sicCode) latest.2
        (getPreviousYearData d) := rfl

theorem analysisFor_ratios (d : NormalizedFinancials)
    (latest : Int × FiscalYearData) :
    (analysisFor d latest).ratios =
      buildRatios (getBenchmarks d.sicCode) latest.2 := rfl

theorem sortYearsDesc_eq_nil_iff (l : List FiscalYearData) :
    sortYearsDesc l = [] ↔ l = [] := by
  constructor
  · intro h
    have hp := List.perm_insertionSort
      (fun a b : FiscalYearData => b.year ≤ a.year) l
    rw [sortYearsDesc] at h
    rw [h] at hp
    exact hp.symm.eq_nil
  · intro h
    subst h
    rfl

theorem dataQualityFlag_fires (rev ta tl : Option ℚ)
    (h : rev = none ∨ rev = some 0 ∨ ta = none ∨ ta = some 0 ∨
         tl = none ∨ tl = some 0) :
    dataQualityFlagOf rev ta tl =
      some ⟨"incomplete-data", .medium, "Data Quality",
            "Incomplete Financial Data"⟩ := by
  unfold dataQualityFlagOf
  rw [if_pos h]

/-- The record refuting claim C7: stockholders' equity is separately
reported (500), yet the code derives the debt-to-equity denominator from
total assets − total liabilities (800). -/
def c7Record : FiscalYearData :=
  { emptyFY 2023 with
    totalAssets := some 1000,
    totalLiabilities := some 200,
    stockholdersEquity := some 500,
    longTermDebt := some 100 }

/-- C7 counterexample: with stockholders' equity available (500) the
claim predicts debt-to-equity 100/500, but the code yields
100/(1000 − 200). -/
theorem claim_C7_counterexample :
    c7Record.stockholdersEquity = some 500 ∧
    c7Record.longTermDebt = some 100 ∧
    debtToEquityOf c7Record ≠ some ((100 : ℚ) / 500) := by
  refine ⟨rfl, rfl, ?_⟩
  have h := debtToEquityOf_eq_some c7Record 100 (1000 - 200) rfl rfl
    (by norm_num) (by norm_num)
  rw [h]
  intro hcontra
  have heq : ((100 : ℚ) / (1000 - 200)) = 100 / 500 :=
    Option.some.inj hcontra
  norm_num at heq

/-- C7 (amended): the debt-to-equity denominator is always the
approximation totalAssets − totalLiabilities; the separately reported
stockholdersEquity field is never consulted, even when present. -/
theorem claim_C7_equity_approximation (r : FiscalYearData) :
    (∀ se : Option ℚ,
      debtToEquityOf { r with stockholdersEquity := se } =
        debtToEquityOf r) ∧
    (∀ ta tl, r.totalAssets = some ta → r.totalLiabilities = some tl →
      ta ≠ 0 → tl ≠ 0 → equityOf r = some (ta - tl)) ∧
    (∀ l e, r.longTermDebt = some l → equityOf r = some e →
      l ≠ 0 → 0 < e → debtToEquityOf r = some (l / e)) :=
  ⟨fun _ => rfl,
   fun ta tl h1 h2 h3 h4 => equityOf_eq_some r ta tl h1 h2 h3 h4,
   fun l e h1 h2 h3 h4 => debtToEquityOf_eq_some r l e h1 h2 h3 h4⟩

/-- C7 witness: the amended theorem applied at `c7Record`. -/
theorem claim_C7_equity_approximation_witness :
    debtToEquityOf { c7Record with stockholdersEquity := none } =
      debtToEquityOf c7Record ∧
    equityOf c7Record = some ((1000 : ℚ) - 200) ∧
    debtToEquityOf c7Record = some ((100 : ℚ) / (1000 - 200)) := by
  obtain ⟨h1, h2, h3⟩ := claim_C7_equity_approximation c7Record
  exact ⟨h1 none, h2 1000 200 rfl rfl (by norm_num) (by norm_num),
         h3 100 (1000 - 200) rfl rfl (by norm_num) (by norm_num)⟩

/-- C10: the analyzer treats a reported 0 in any used input field the
same as an absent value — every ratio whose formula uses that field is
null — and the incomplete-data flag (severity `medium`) fires whenever
revenue, total assets or total liabilities is 0 even though the field is
present. -/
theorem claim_C10_zero_as_missing (r : FiscalYearData) :
    (r.longTermDebt = some 0 → debtToEquityOf r = none) ∧
    (r.netIncome = some 0 →
      netMarginOf r = none ∧ roaOf r = none ∧ roeOf r = none) ∧
    (r.revenue = some 0 → netMarginOf r = none) ∧
    (r.totalAssets = some 0 →
      equityOf r = none ∧ roaOf r = none ∧ debtToEquityOf r = none ∧
      roeOf r = none) ∧
    (r.totalLiabilities = some 0 →
      equityOf r = none ∧ debtToEquityOf r = none ∧ roeOf r = none) ∧
    (r.currentAssets = some 0 →
      currentRatioOf r = none ∧ quickRatioOf r = none) ∧
    (r.currentLiabilities = some 0 →
      currentRatioOf r = none ∧ quickRatioOf r = none) ∧
    (r.cashAndEquivalents = some 0 → quickRatioOf r = none) ∧
    (∀ d a latest, useCreditAnalysis (some d) = some a →
      getLatestYearData d = some latest →
      (latest.2.revenue = some 0 ∨ latest.2.totalAssets = some 0 ∨
       latest.2.totalLiabilities = some 0) →
      ∃ f ∈ a.riskFlags, f.id = "incomplete-data" ∧
        f.severity = .medium) := by
  refine ⟨?_, ?_, ?_, ?_, ?_, ?_, ?_, ?_, ?_⟩
  · intro h; rw [debtToEquityOf_none_iff]; tauto
  · intro h
    exact ⟨by rw [netMarginOf_none_iff]; tauto,
           by rw [roaOf_none_iff]; tauto,
           by rw [roeOf_none_iff]; tauto⟩
  · intro h; rw [netMarginOf_none_iff]; tauto
  · intro h
    have he : equityOf r = none := by rw [equityOf_none_iff]; tauto
    exact ⟨he, by rw [roaOf_none_iff]; tauto,
           by rw [debtToEquityOf_none_iff]; tauto,
           by rw [roeOf_none_iff]; tauto⟩
  · intro h
    have he : equityOf r = none := by rw [equityOf_none_iff]; tauto
    exact ⟨he, by rw [debtToEquityOf_none_iff]; tauto,
           by rw [roeOf_none_iff]; tauto⟩
  · intro h
    exact ⟨by rw [currentRatioOf_none_iff]; tauto,
           by rw [quickRatioOf_none_iff]; tauto⟩
  · intro h
    exact ⟨by rw [currentRatioOf_none_iff]; tauto,
           by rw [quickRatioOf_none_iff]; tauto⟩
  · intro h; rw [quickRatioOf_none_iff]; tauto
  · intro d a latest hca hl hcond
    rw [useCreditAnalysis_eq_some d latest hl] at hca
    have ha : a = analysisFor d latest := (Option.some.inj hca).symm
    subst ha
    rw [analysisFor_riskFlags]
    have hd := dataQualityFlag_fires latest.2.revenue latest.2.totalAssets
      latest.2.totalLiabilities (by tauto)
    refine ⟨⟨"incomplete-data", .medium, "Data Quality",
             "Incomplete Financial Data"⟩, ?_, rfl, rfl⟩
    unfold buildRiskFlags
    apply List.mem_append_right
    rw [hd]
    simp

/-- A record with every financial field reported as exactly 0. -/
def c10Record : FiscalYearData :=
  { year := 2020, revenue := some 0, netIncome := some 0,
    totalAssets := some 0, totalLiabilities := some 0,
    stockholdersEquity := some 0, operatingCashFlow := some 0,
    ebitda := some 0, grossProfit := some 0, operatingIncome := some 0,
    longTermDebt := some 0, currentAssets := some 0,
    currentLiabilities := some 0, cashAndEquivalents := some 0 }

/-- Input whose only fiscal year is the all-zero record. -/
def c10Data : NormalizedFinancials :=
  { cik := "0000000000", entityName := "Zero Corp", ticker := "ZRO",
    sicCode := none, fiscalYears := [c10Record], rawMetrics := [] }

/-- C10 witness: the theorem applied at the all-zero record. -/
theorem claim_C10_zero_as_missing_witness :
    debtToEquityOf c10Record = none ∧ netMarginOf c10Record = none ∧
    currentRatioOf c10Record = none ∧ quickRatioOf c10Record = none ∧
    ∃ a, useCreditAnalysis (some c10Data) = some a ∧
      ∃ f ∈ a.riskFlags, f.id = "incomplete-data" ∧
        f.severity = .medium := by
  obtain ⟨h1, h2, h3, h4, h5, h6, h7, h8, h9⟩ :=
    claim_C10_zero_as_missing c10Record
  have hl : getLatestYearData c10Data = some (2020, c10Record) := rfl
  have hsome := useCreditAnalysis_eq_some c10Data (2020, c10Record) hl
  exact ⟨h1 rfl, (h2 rfl).1, (h6 rfl).1, h8 rfl,
         ⟨_, hsome, h9 c10Data _ (2020, c10Record) hsome hl (Or.inl rfl)⟩⟩

/-- Input with a single fiscal year whose financial fields are all null. -/
def c4Data : NormalizedFinancials :=
  { cik := "0000000000", entityName := "Null Corp", ticker := "NUL",
    sicCode := none, fiscalYears := [emptyFY 2020], rawMetrics := [] }

/-- C4 counterexample: the latest (only) fiscal year has every financial
field null, yet the analyzer still returns an analysis, refuting the
claimed "returns null ... also when the latest record is all-null". -/
theorem claim_C4_counterexample :
    c4Data.fiscalYears = [emptyFY 2020] ∧
    (emptyFY 2020).revenue = none ∧ (emptyFY 2020).netIncome = none ∧
    (emptyFY 2020).totalAssets = none ∧
    (emptyFY 2020).totalLiabilities = none ∧
    (emptyFY 2020).stockholdersEquity = none ∧
    (emptyFY 2020).operatingCashFlow = none ∧
    (emptyFY 2020).ebitda = none ∧ (emptyFY 2020).grossProfit = none ∧
    (emptyFY 2020).operatingIncome = none ∧
    (emptyFY 2020).longTermDebt = none ∧
    (emptyFY 2020).currentAssets = none ∧
    (emptyFY 2020).currentLiabilities = none ∧
    (emptyFY 2020).cashAndEquivalents = none ∧
    useCreditAnalysis (some c4Data) ≠ none := by
  refine ⟨rfl, rfl, rfl, rfl, rfl, rfl, rfl, rfl, rfl, rfl, rfl, rfl,
    rfl, rfl, ?_⟩
  have hl : getLatestYearData c4Data = some (2020, emptyFY 2020) := rfl
  rw [useCreditAnalysis_eq_some c4Data (2020, emptyFY 2020) hl]
  simp

/-- C4 (amended): the analyzer returns the absent result exactly when the
input is absent or has zero fiscal years; an all-null latest year still
produces an analysis. -/
theorem claim_C4_no_analysis (d : NormalizedFinancials) :
    useCreditAnalysis none = none ∧
    (useCreditAnalysis (some d) = none ↔ d.fiscalYears = []) := by
  refine ⟨rfl, ?_⟩
  rw [← sortYearsDesc_eq_nil_iff]
  rcases hs : sortYearsDesc d.fiscalYears with _ | ⟨x, rest⟩ <;>
    simp [useCreditAnalysis, getLatestYearData, hs]

theorem scoreCategoryOf_iff (s : ℚ) :
    (scoreCategoryOf s = .excellent ↔ 80 ≤ s) ∧
    (scoreCategoryOf s = .good ↔ 65 ≤ s ∧ s < 80) ∧
    (scoreCategoryOf s = .fair ↔ 50 ≤ s ∧ s < 65) ∧
    (scoreCategoryOf s = .poor ↔ 35 ≤ s ∧ s < 50) ∧
    (scoreCategoryOf s = .critical ↔ s < 35) := by
  unfold scoreCategoryOf
  split_ifs with h1 h2 h3 h4 <;> refine ⟨?_, ?_, ?_, ?_, ?_⟩ <;> simp <;>
    first
      | linarith
      | (constructor <;> linarith)
      | (rintro ⟨ha, hb⟩; linarith)
      | (intro ha; linarith)

/-- C2: for every non-null analysis, the overall score equals the clamp
to [0, 100] of the mean of the six per-ratio points (good = 100,
warning = 60, critical = 20) minus the summed severity penalties
(critical = 15, high = 10, medium = 5, low = 2); the score always lies in
[0, 100], and the category thresholds are ≥80 excellent, ≥65 good,
≥50 fair, ≥35 poor, else critical. -/
theorem claim_C2_score (d : NormalizedFinancials) (a : CreditAnalysis)
    (h : useCreditAnalysis (some d) = some a) :
    a.ratios.length = 6 ∧
    a.overallScore = max 0 (min 100
      ((a.ratios.map (fun r => ratioPoints r.status)).sum / 6 -
       (a.riskFlags.map (fun f => severityPenalty f.severity)).sum)) ∧
    0 ≤ a.overallScore ∧ a.overallScore ≤ 100 ∧
    (a.scoreCategory = .excellent ↔ 80 ≤ a.overallScore) ∧
    (a.scoreCategory = .good ↔ 65 ≤ a.overallScore ∧ a.overallScore < 80) ∧
    (a.scoreCategory = .fair ↔ 50 ≤ a.overallScore ∧ a.overallScore < 65) ∧
    (a.scoreCategory = .poor ↔ 35 ≤ a.overallScore ∧ a.overallScore < 35 + 15) ∧
    (a.scoreCategory = .critical ↔ a.overallScore < 35) := by
  rcases hd : getLatestYearData d with _ | latest
  · simp [useCreditAnalysis, hd] at h
  rw [useCreditAnalysis_eq_some d latest hd] at h
  have ha : a = analysisFor d latest := (Option.some.inj h).symm
  subst ha
  have hlen : (analysisFor d latest).ratios.length = 6 := rfl
  have hmaplen :
      ((analysisFor d latest).ratios.map
        (fun r => ratioPoints r.status)).length = 6 := by
    rw [List.length_map]; exact hlen
  have hscore : (analysisFor d latest).overallScore = max 0 (min 100
      (((analysisFor d latest).ratios.map
          (fun r => ratioPoints r.status)).sum /
        ((((analysisFor d latest).ratios.map
          (fun r => ratioPoints r.status)).length : ℕ) : ℚ) -
       ((analysisFor d latest).riskFlags.map
          (fun f => severityPenalty f.severity)).sum)) := rfl
  rw [hmaplen] at hscore
  rw [Nat.cast_ofNat] at hscore
  have hcat : (analysisFor d latest).scoreCategory =
      scoreCategoryOf ((analysisFor d latest).overallScore) := rfl
  obtain ⟨k1, k2, k3, k4, k5⟩ :=
    scoreCategoryOf_iff ((analysisFor d latest).overallScore)
  refine ⟨hlen, hscore, ?_, ?_, ?_, ?_, ?_, ?_, ?_⟩
  · rw [hscore]; exact le_max_left 0 _
  · rw [hscore]; exact max_le (by norm_num) (min_le_left _ _)
  · rw [hcat]; exact k1
  · rw [hcat]; exact k2
  · rw [hcat]; exact k3
  · rw [hcat]
    have : (35 : ℚ) + 15 = 50 := by norm_num
    rw [this]
    exact k4
  · rw [hcat]; exact k5

/-- Input with one all-null fiscal year, used to instantiate C2. -/
def c2Data : NormalizedFinancials :=
  { cik := "0000000001", entityName := "W", ticker := "W",
    sicCode := none, fiscalYears := [emptyFY 2021], rawMetrics := [] }

/-- C2 witness: the theorem applied at a concrete input. -/
theorem claim_C2_score_witness :
    ∃ a, useCreditAnalysis (some c2Data) = some a ∧ a.ratios.length = 6 ∧
      0 ≤ a.overallScore ∧ a.overallScore ≤ 100 ∧
      (a.scoreCategory = .excellent ↔ 80 ≤ a.overallScore) := by
  have hl : getLatestYearData c2Data = some (2021, emptyFY 2021) := rfl
  have hsome := useCreditAnalysis_eq_some c2Data _ hl
  obtain ⟨g1, g2, g3, g4, g5, g6, g7, g8, g9⟩ :=
    claim_C2_score c2Data _ hsome
  exact ⟨_, hsome, g1, g3, g4, g5⟩

/-! ### Which flag ids each rule can emit -/

theorem liquidityFlag_mem (cr : Option ℚ) (f : RiskFlag)
    (h : f ∈ (liquidityFlagOf cr).toList) :
    ∃ v, cr = some v ∧ v < 1 ∧ f.id = "low-current-ratio" ∧
      f.severity = (if v < 0.5 then Severity.critical else .high) := by
  rcases cr with _ | v
  · simp [liquidityFlagOf] at h
  · simp only [liquidityFlagOf] at h
    split at h
    case isTrue h1 =>
      simp at h
      subst h
      exact ⟨v, rfl, h1, rfl, rfl⟩
    case isFalse => simp at h

theorem liquidityFlag_fires (v : ℚ) (hv : v < 1) :
    liquidityFlagOf (some v) =
      some ⟨"low-current-ratio", if v < 0.5 then .critical else .high,
            "Liquidity", "Low Current Ratio"⟩ := by
  simp [liquidityFlagOf, hv]

theorem leverageFlag_id (x : Option ℚ) (b : ℚ) (f : RiskFlag)
    (h : f ∈ (leverageFlagOf x b).toList) : f.id = "high-leverage" := by
  rcases x with _ | v
  · simp [leverageFlagOf] at h
  · simp only [leverageFlagOf] at h
    split at h
    · simp at h; subst h; rfl
    · simp at h

theorem profitabilityFlag_id (x : Option ℚ) (b : ℚ) (f : RiskFlag)
    (h : f ∈ (profitabilityFlagOf x b).toList) :
    f.id = "negative-margin" ∨ f.id = "low-margin" := by
  rcases x with _ | v
  · simp [profitabilityFlagOf] at h
  · simp only [profitabilityFlagOf] at h
    split at h
    · simp at h; subst h; exact Or.inl rfl
    · split at h
      · simp at h; subst h; exact Or.inr rfl
      · simp at h

theorem revenueDeclineFlag_id (p : Option (Int × FiscalYearData))
    (x : Option ℚ) (f : RiskFlag)
    (h : f ∈ (revenueDeclineFlagOf p x).toList) :
    f.id = "revenue-decline" := by
  rcases p with _ | p <;> rcases x with _ | v
  · simp [revenueDeclineFlagOf] at h
  · simp [revenueDeclineFlagOf] at h
  · simp [revenueDeclineFlagOf] at h
  · simp only [revenueDeclineFlagOf] at h
    split at h
    · simp at h
    · split at h
      · simp at h
        obtain ⟨-, -, hrec⟩ := h
        subst hrec
        rfl
      · simp at h

theorem cashFlag_id (c ta : Option ℚ) (f : RiskFlag)
    (h : f ∈ (cashFlagOf c ta).toList) : f.id = "low-cash" := by
  rcases c with _ | cv <;> rcases ta with _ | tav
  · simp [cashFlagOf] at h
  · simp [cashFlagOf] at h
  · simp [cashFlagOf] at h
  · simp only [cashFlagOf] at h
    split at h
    · simp at h
    · split at h
      · simp at h; subst h; rfl
      · simp at h

theorem dataQualityFlag_id (rev ta tl : Option ℚ) (f : RiskFlag)
    (h : f ∈ (dataQualityFlagOf rev ta tl).toList) :
    f.id = "incomplete-data" := by
  unfold dataQualityFlagOf at h
  split_ifs at h with h1
  · simp at h; subst h; rfl
  · simp at h

theorem mem_buildRiskFlags_cases (b : Benchmarks) (latest : FiscalYearData)
    (prev : Option (Int × FiscalYearData)) (f : RiskFlag)
    (h : f ∈ buildRiskFlags b latest prev) :
    f ∈ (liquidityFlagOf (currentRatioOf latest)).toList ∨
    f ∈ (leverageFlagOf (debtToEquityOf latest) b.debtToEquity).toList ∨
    f ∈ (profitabilityFlagOf (netMarginOf latest) b.netMargin).toList ∨
    f ∈ (revenueDeclineFlagOf prev latest.revenue).toList ∨
    f ∈ (cashFlagOf latest.cashAndEquivalents latest.totalAssets).toList ∨
    f ∈ (dataQualityFlagOf latest.revenue latest.totalAssets
          latest.totalLiabilities).toList := by
  unfold buildRiskFlags at h
  simp only [List.mem_append] at h
  tauto

theorem mem_buildRiskFlags_liquidity (b : Benchmarks)
    (latest : FiscalYearData) (prev : Option (Int × FiscalYearData))
    (f : RiskFlag) (h : f ∈ (liquidityFlagOf (currentRatioOf latest)).toList) :
    f ∈ buildRiskFlags b latest prev := by
  unfold buildRiskFlags
  exact List.mem_append_left _ (List.mem_append_left _
    (List.mem_append_left _ (List.mem_append_left _
      (List.mem_append_left _ h))))

/-- C8: for a latest record with current ratio `some v`, the liquidity
flag (id `low-current-ratio`) is among the analysis's risk flags iff
`v < 1.0`, and any such flag has severity `critical` iff `v < 0.5`
(strictly), `high` otherwise — so a current ratio of exactly 0.5 fires
the flag with severity `high`, not `critical`. -/
theorem claim_C8_liquidity_flag (d : NormalizedFinancials)
    (a : CreditAnalysis) (h : useCreditAnalysis (some d) = some a)
    (latest : Int × FiscalYearData) (hl : getLatestYearData d = some latest)
    (v : ℚ) (hv : currentRatioOf latest.2 = some v) :
    ((∃ f ∈ a.riskFlags, f.id = "low-current-ratio") ↔ v < 1) ∧
    (∀ f ∈ a.riskFlags, f.id = "low-current-ratio" →
      (f.severity = .critical ↔ v < 0.5) ∧
      (f.severity = .high ↔ ¬ v < 0.5)) := by
  rw [useCreditAnalysis_eq_some d latest hl] at h
  have ha : a = analysisFor d latest := (Option.some.inj h).symm
  subst ha
  rw [analysisFor_riskFlags]
  constructor
  · constructor
    · rintro ⟨f, hf, hid⟩
      rcases mem_buildRiskFlags_cases _ _ _ f hf with
        h1 | h2 | h3 | h4 | h5 | h6
      · obtain ⟨v', hv', hlt, _, _⟩ := liquidityFlag_mem _ f h1
        rw [hv] at hv'
        exact (Option.some.inj hv') ▸ hlt
      · rw [leverageFlag_id _ _ f h2] at hid; exact absurd hid (by decide)
      · rcases profitabilityFlag_id _ _ f h3 with hh | hh <;>
          rw [hh] at hid <;> exact absurd hid (by decide)
      · rw [revenueDeclineFlag_id _ _ f h4] at hid
        exact absurd hid (by decide)
      · rw [cashFlag_id _ _ f h5] at hid; exact absurd hid (by decide)
      · rw [dataQualityFlag_id _ _ _ f h6] at hid
        exact absurd hid (by decide)
    · intro hlt
      refine ⟨⟨"low-current-ratio", if v < 0.5 then .critical else .high,
               "Liquidity", "Low Current Ratio"⟩,
              mem_buildRiskFlags_liquidity _ _ _ _ ?_, rfl⟩
      rw [hv, liquidityFlag_fires v hlt]
      simp
  · intro f hf hid
    rcases mem_buildRiskFlags_cases _ _ _ f hf with
      h1 | h2 | h3 | h4 | h5 | h6
    · obtain ⟨v', hv', hlt, _, hsev⟩ := liquidityFlag_mem _ f h1
      rw [hv] at hv'
      have hvv : v' = v := Option.some.inj hv'.symm
      rw [hvv] at hsev
      rw [hsev]
      by_cases hlt : v < 0.5
      · rw [if_pos hlt]
        exact ⟨⟨fun _ => hlt, fun _ => rfl⟩,
               ⟨fun hc => absurd hc (by decide), fun hn => absurd hlt hn⟩⟩
      · rw [if_neg hlt]
        exact ⟨⟨fun hc => absurd hc (by decide), fun hc => absurd hc hlt⟩,
               ⟨fun _ => hlt, fun _ => rfl⟩⟩
    · rw [leverageFlag_id _ _ f h2] at hid; exact absurd hid (by decide)
    · rcases profitabilityFlag_id _ _ f h3 with hh | hh <;>
        rw [hh] at hid <;> exact absurd hid (by decide)
    · rw [revenueDeclineFlag_id _ _ f h4] at hid
      exact absurd hid (by decide)
    · rw [cashFlag_id _ _ f h5] at hid; exact absurd hid (by decide)
    · rw [dataQualityFlag_id _ _ _ f h6] at hid
      exact absurd hid (by decide)

/-- The boundary record of the claim: currentAssets 50, current
liabilities 100, current ratio exactly 0.5. -/
def c8Record : FiscalYearData :=
  { emptyFY 2020 with
    currentAssets := some 50,
    currentLiabilities := some 100 }

/-- Input whose only fiscal year is the boundary record. -/
def c8Data : NormalizedFinancials :=
  { cik := "0000000002", entityName := "B", ticker := "B",
    sicCode := none, fiscalYears := [c8Record], rawMetrics := [] }

/-- C8 witness: at current ratio 50/100 = 0.5 the flag fires with
severity `high`, not `critical`. -/
theorem claim_C8_liquidity_flag_witness :
    ∃ a, useCreditAnalysis (some c8Data) = some a ∧
      (∃ f ∈ a.riskFlags, f.id = "low-current-ratio") ∧
      ∀ f ∈ a.riskFlags, f.id = "low-current-ratio" →
        f.severity = .high ∧ f.severity ≠ .critical := by
  have hl : getLatestYearData c8Data = some (2020, c8Record) := rfl
  have hsome := useCreditAnalysis_eq_some c8Data _ hl
  have hv : currentRatioOf c8Record = some ((50 : ℚ) / 100) :=
    currentRatioOf_eq_some _ _ _ rfl rfl (by norm_num) (by norm_num)
  obtain ⟨hiff, hsev⟩ := claim_C8_liquidity_flag c8Data _ hsome
    (2020, c8Record) hl ((50 : ℚ) / 100) hv
  refine ⟨_, hsome, hiff.mpr (by norm_num), ?_⟩
  intro f hf hid
  obtain ⟨hc, hh⟩ := hsev f hf hid
  have hnotlt : ¬ ((50 : ℚ) / 100 < 0.5) := by norm_num
  exact ⟨hh.mpr hnotlt, fun hcontra => hnotlt (hc.mp hcontra)⟩

theorem normalizeFinancials_cash_none (facts : SECCompanyFacts)
    (ticker : String) (sic : Option String) (s e : Int) :
    ∀ fy ∈ (normalizeFinancials facts ticker sic s e).fiscalYears,
      fy.cashAndEquivalents = none := by
  intro fy hfy
  simp only [normalizeFinancials] at hfy
  rw [List.mem_map] at hfy
  obtain ⟨p, _, hp⟩ := hfy
  rw [← hp]
  rfl

theorem getLatest_mem (d : NormalizedFinancials)
    (latest : Int × FiscalYearData)
    (hl : getLatestYearData d = some latest) : latest.2 ∈ d.fiscalYears := by
  unfold getLatestYearData at hl
  rcases hs : sortYearsDesc d.fiscalYears with _ | ⟨x, rest⟩ <;>
    rw [hs] at hl
  · simp at hl
  · have hx : latest = (x.year, x) := (Option.some.inj hl).symm
    have hmem : x ∈ sortYearsDesc d.fiscalYears := by
      rw [hs]; exact List.mem_cons_self x rest
    unfold sortYearsDesc at hmem
    have hperm := List.perm_insertionSort
      (fun a b : FiscalYearData => b.year ≤ a.year) d.fiscalYears
    rw [hx]
    exact hperm.mem_iff.mp hmem

/-- C9: the Normalizer never populates `cashAndEquivalents` (no concept
maps to it and the constructed records omit it), so on any analysis of a
Normalizer output the quick ratio is null (hence classified `warning`)
and the low-cash-reserves flag never fires. -/
theorem claim_C9_no_cash (facts : SECCompanyFacts) (ticker : String)
    (sic : Option String) (s e : Int) :
    (∀ fy ∈ (normalizeFinancials facts ticker sic s e).fiscalYears,
      fy.cashAndEquivalents = none) ∧
    (∀ a, useCreditAnalysis
        (some (normalizeFinancials facts ticker sic s e)) = some a →
      (∀ rr ∈ a.ratios, rr.name = "Quick Ratio" →
        rr.value = none ∧ rr.status = .warning) ∧
      (∀ f ∈ a.riskFlags, f.id ≠ "low-cash")) := by
  have hcashAll := normalizeFinancials_cash_none facts ticker sic s e
  refine ⟨hcashAll, ?_⟩
  intro a h
  rcases hd : getLatestYearData (normalizeFinancials facts ticker sic s e)
    with _ | latest
  · simp [useCreditAnalysis, hd] at h
  rw [useCreditAnalysis_eq_some _ latest hd] at h
  have ha : a = analysisFor _ latest := (Option.some.inj h).symm
  subst ha
  have hcash : latest.2.cashAndEquivalents = none :=
    hcashAll latest.2 (getLatest_mem _ latest hd)
  have hqr : quickRatioOf latest.2 = none := by
    rw [quickRatioOf_none_iff]; tauto
  have hstat : calculateRatioStatus (quickRatioOf latest.2) 1.0 true
      ⟨0.9, 0.6⟩ = .warning := by rw [hqr]; rfl
  constructor
  · intro rr hrr hname
    rw [analysisFor_ratios] at hrr
    simp only [buildRatios, List.mem_cons, List.not_mem_nil,
      or_false] at hrr
    rcases hrr with h1 | h2 | h3 | h4 | h5 | h6 <;> subst_eqs
    · simp at hname
    · simp at hname
    · simp at hname
    · simp at hname
    · simp at hname
    · exact ⟨hqr, hstat⟩
  · intro f hf
    rw [analysisFor_riskFlags] at hf
    rcases mem_buildRiskFlags_cases _ _ _ f hf with
      h1 | h2 | h3 | h4 | h5 | h6
    · obtain ⟨v', _, _, hid, _⟩ := liquidityFlag_mem _ f h1
      rw [hid]; decide
    · rw [leverageFlag_id _ _ f h2]; decide
    · rcases profitabilityFlag_id _ _ f h3 with hh | hh <;> rw [hh] <;>
        decide
    · rw [revenueDeclineFlag_id _ _ f h4]; decide
    · rw [hcash] at h5; simp [cashFlagOf] at h5
    · rw [dataQualityFlag_id _ _ _ f h6]; decide

/-- An empty raw fact set used to instantiate C9. -/
def c9Facts : SECCompanyFacts :=
  { cik := 1, entityName := "E", us_gaap := [] }

/-- C9 witness: the theorem applied at the empty fact set over the
one-year range [2020, 2020]. -/
theorem claim_C9_no_cash_witness :
    (∀ fy ∈ (normalizeFinancials c9Facts "" none 2020 2020).fiscalYears,
      fy.cashAndEquivalents = none) ∧
    ∃ a, useCreditAnalysis
        (some (normalizeFinancials c9Facts "" none 2020 2020)) = some a ∧
      (∀ rr ∈ a.ratios, rr.name = "Quick Ratio" →
        rr.value = none ∧ rr.status = .warning) ∧
      (∀ f ∈ a.riskFlags, f.id ≠ "low-cash") := by
  obtain ⟨h1, h2⟩ := claim_C9_no_cash c9Facts "" none 2020 2020
  have hl : getLatestYearData (normalizeFinancials c9Facts "" none 2020 2020) =
      some (2020, finalizeFY (emptyFY 2020)) := rfl
  have hsome := useCreditAnalysis_eq_some _ _ hl
  exact ⟨h1, _, hsome, h2 _ hsome⟩

/-! ### Invariants of the year map maintained by the Normalizer -/

theorem jsGet_mem {κ ν : Type} [DecidableEq κ] (l : List (κ × ν)) (k : κ)
    (v : ν) (h : jsGet l k = some v) : (k, v) ∈ l := by
  induction l with
  | nil => simp [jsGet] at h
  | cons p rest ih =>
    obtain ⟨k', v'⟩ := p
    simp only [jsGet] at h
    split_ifs at h with hk
    · subst hk
      simp at h
      subst h
      exact List.mem_cons_self _ _
    · exact List.mem_cons_of_mem _ (ih h)

theorem jsGet_isSome_of_mem_keys {κ ν : Type} [DecidableEq κ]
    (l : List (κ × ν)) (k : κ) (h : k ∈ l.map Prod.fst) :
    ∃ v, jsGet l k = some v := by
  induction l with
  | nil => simp at h
  | cons p rest ih =>
    obtain ⟨k', v'⟩ := p
    by_cases hk : k' = k
    · exact ⟨v', by simp [jsGet, hk]⟩
    · simp only [List.map_cons, List.mem_cons] at h
      rcases h with h | h
      · exact absurd h.symm hk
      · obtain ⟨v, hv⟩ := ih h
        exact ⟨v, by simp [jsGet, hk, hv]⟩

theorem jsSet_keys {κ ν : Type} [DecidableEq κ] (l : List (κ × ν)) (k : κ)
    (v : ν) (h : k ∈ l.map Prod.fst) :
    (jsSet l k v).map Prod.fst = l.map Prod.fst := by
  induction l with
  | nil => simp at h
  | cons p rest ih =>
    obtain ⟨k', v'⟩ := p
    simp only [jsSet]
    split_ifs with hk
    · simp
    · simp only [List.map_cons]
      congr 1
      apply ih
      simp only [List.map_cons, List.mem_cons] at h
      rcases h with h | h
      · exact absurd h.symm hk
      · exact h

theorem jsSet_inv {κ ν : Type} [DecidableEq κ] (P : κ → ν → Prop)
    (l : List (κ × ν)) (k : κ) (v : ν) (hP : ∀ p ∈ l, P p.1 p.2)
    (hv : P k v) : ∀ p ∈ jsSet l k v, P p.1 p.2 := by
  induction l with
  | nil =>
    intro p hp
    simp [jsSet] at hp
    rw [hp]
    exact hv
  | cons q rest ih =>
    intro p hp
    obtain ⟨k', v'⟩ := q
    simp only [jsSet] at hp
    split_ifs at hp with hk
    · rcases List.mem_cons.mp hp with h | h
      · rw [h]
        subst hk
        exact hv
      · exact hP p (List.mem_cons_of_mem _ h)
    · rcases List.mem_cons.mp hp with h | h
      · rw [h]
        exact hP (k', v') (List.mem_cons_self _ _)
      · exact ih (fun q hq => hP q (List.mem_cons_of_mem _ hq)) p h

theorem setField_year (r : FiscalYearData) (v : ℚ) (f : MField) :
    (setField r v f).year = r.year := by
  cases f <;> rfl

theorem rangeInts_mem {a b k : Int} (h1 : a ≤ k) (h2 : k ≤ b) :
    k ∈ rangeInts a b := by
  unfold rangeInts
  rw [List.mem_map]
  refine ⟨(k - a).toNat, ?_, by omega⟩
  rw [List.mem_range]
  omega

theorem rangeInts_pairwise (a b : Int) :
    (rangeInts a b).Pairwise (· < ·) := by
  unfold rangeInts
  refine List.Pairwise.map (fun i : ℕ => a + (i : Int)) ?_
    (List.pairwise_lt_range _)
  intro i j hij
  show a + (i : Int) < a + (j : Int)
  omega

theorem rangeInts_length (a b : Int) :
    (rangeInts a b).length = (b - a + 1).toNat := by
  unfold rangeInts
  rw [List.length_map, List.length_range]

/-- The invariant of the `yearData` map: its key list is exactly the
requested range and every stored partial record carries its key as its
year. -/
def ydKeysInv (s e : Int) (yd : List (Int × FiscalYearData)) : Prop :=
  yd.map Prod.fst = rangeInts s e ∧ ∀ p ∈ yd, p.2.year = p.1

theorem processValue_inv (s e : Int) (name : MField)
    (yd : List (Int × FiscalYearData)) (v : RawObs)
    (h : ydKeysInv s e yd) : ydKeysInv s e (processValue s e name yd v) := by
  simp only [processValue]
  split_ifs with hrel hnew
  · have hfy : s ≤ v.fy ∧ v.fy ≤ e := by
      simp [relevantObs] at hrel
      exact ⟨hrel.1.2, hrel.2⟩
    have hkey : v.fy ∈ yd.map Prod.fst := by
      rw [h.1]
      exact rangeInts_mem hfy.1 hfy.2
    have hyear : ((jsGet yd v.fy).getD (emptyFY v.fy)).year = v.fy := by
      rcases hg : jsGet yd v.fy with _ | ex
      · rfl
      · exact h.2 (v.fy, ex) (jsGet_mem yd v.fy ex hg)
    constructor
    · rw [jsSet_keys _ _ _ hkey]
      exact h.1
    · exact jsSet_inv (fun (k : Int) (r : FiscalYearData) => r.year = k)
        yd v.fy _ h.2 (by simp only [setField_year]; exact hyear)
  · exact h
  · exact h

theorem foldl_processValue_inv (s e : Int) (name : MField)
    (obs : List RawObs) (yd : List (Int × FiscalYearData))
    (h : ydKeysInv s e yd) :
    ydKeysInv s e (obs.foldl (processValue s e name) yd) := by
  induction obs generalizing yd with
  | nil => exact h
  | cons o rest ih => exact ih _ (processValue_inv s e name yd o h)

theorem processConcept_yd_inv (s e : Int) (st : NState)
    (entry : String × ConceptData) (h : ydKeysInv s e st.yd) :
    ydKeysInv s e (processConcept s e st entry).yd := by
  simp only [processConcept]
  rcases metricMapping entry.1 with _ | name
  · exact h
  · exact foldl_processValue_inv s e name _ st.yd h

theorem foldl_processConcept_inv (s e : Int)
    (concepts : List (String × ConceptData)) (st : NState)
    (h : ydKeysInv s e st.yd) :
    ydKeysInv s e ((concepts.foldl (processConcept s e) st).yd) := by
  induction concepts generalizing st with
  | nil => exact h
  | cons c rest ih => exact ih _ (processConcept_yd_inv s e st c h)

theorem init_inv (s e : Int) :
    ydKeysInv s e ((rangeInts s e).map (fun y => (y, emptyFY y))) := by
  constructor
  · rw [List.map_map]
    have hcomp : (Prod.fst ∘ fun y : Int => (y, emptyFY y)) = id := rfl
    rw [hcomp, List.map_id]
  · intro p hp
    rw [List.mem_map] at hp
    obtain ⟨y, _, hy⟩ := hp
    rw [← hy]
    rfl

theorem sorted_years_eq (vs : List FiscalYearData) (a b : Int)
    (h : vs.map (fun fy => fy.year) = rangeInts a b) :
    ((List.insertionSort (fun x y => x.year ≤ y.year) vs).map
      (fun fy => fy.year)) = rangeInts a b := by
  haveI : IsTotal FiscalYearData (fun x y => x.year ≤ y.year) :=
    ⟨fun x y => le_total x.year y.year⟩
  haveI : IsTrans FiscalYearData (fun x y => x.year ≤ y.year) :=
    ⟨fun x y z h1 h2 => le_trans h1 h2⟩
  have hsorted : List.Sorted (fun x y : FiscalYearData => x.year ≤ y.year)
      (List.insertionSort (fun x y => x.year ≤ y.year) vs) :=
    List.sorted_insertionSort _ vs
  have hmap : List.Sorted (· ≤ ·)
      ((List.insertionSort (fun x y => x.year ≤ y.year) vs).map
        (fun fy => fy.year)) :=
    List.Pairwise.map _ (fun x y hxy => hxy) hsorted
  have hperm : ((List.insertionSort (fun x y => x.year ≤ y.year) vs).map
      (fun fy => fy.year)).Perm (rangeInts a b) := by
    rw [← h]
    exact (List.perm_insertionSort _ vs).map _
  have hrange : List.Sorted (· ≤ ·) (rangeInts a b) :=
    (rangeInts_pairwise a b).imp (fun hlt => le_of_lt hlt)
  exact List.eq_of_perm_of_sorted hperm hmap hrange

/-- C1: for every raw fact set and every range with start ≤ end, the
Normalizer's fiscal-year sequence carries exactly the years
start..end in order — length end − start + 1, strictly ascending, no
gaps, no duplicates — regardless of whether any observation matched. -/
theorem claim_C1_year_sequence (facts : SECCompanyFacts) (ticker : String)
    (sic : Option String) (a b : Int) (h : a ≤ b) :
    ((normalizeFinancials facts ticker sic a b).fiscalYears.map
      (fun fy => fy.year)) = rangeInts a b ∧
    ((normalizeFinancials facts ticker sic a b).fiscalYears.length : Int) =
      b - a + 1 ∧
    ((normalizeFinancials facts ticker sic a b).fiscalYears.map
      (fun fy => fy.year)).Pairwise (· < ·) := by
  have hinv := foldl_processConcept_inv a b facts.us_gaap
    ⟨[], (rangeInts a b).map (fun y => (y, emptyFY y))⟩ (init_inv a b)
  have hvs : (((facts.us_gaap.foldl (processConcept a b)
      ⟨[], (rangeInts a b).map (fun y => (y, emptyFY y))⟩).yd.map
        Prod.snd).map (fun fy => fy.year)) = rangeInts a b := by
    rw [List.map_map]
    calc ((facts.us_gaap.foldl (processConcept a b)
        ⟨[], (rangeInts a b).map (fun y => (y, emptyFY y))⟩).yd.map
          ((fun fy => fy.year) ∘ Prod.snd))
        = ((facts.us_gaap.foldl (processConcept a b)
            ⟨[], (rangeInts a b).map (fun y => (y, emptyFY y))⟩).yd.map
              Prod.fst) :=
          List.map_congr_left (fun p hp => hinv.2 p hp)
      _ = rangeInts a b := hinv.1
  have hfy : (normalizeFinancials facts ticker sic a b).fiscalYears.map
      (fun fy => fy.year) = rangeInts a b := by
    show ((List.insertionSort (fun x y => x.year ≤ y.year)
      ((facts.us_gaap.foldl (processConcept a b)
        ⟨[], (rangeInts a b).map (fun y => (y, emptyFY y))⟩).yd.map
          Prod.snd)).map finalizeFY).map (fun fy => fy.year) = rangeInts a b
    rw [List.map_map]
    have hcomp : ((fun fy : FiscalYearData => fy.year) ∘ finalizeFY) =
        (fun fy : FiscalYearData => fy.year) := by
      funext p
      rfl
    rw [hcomp]
    exact sorted_years_eq _ a b hvs
  refine ⟨hfy, ?_, ?_⟩
  · have hlen : (normalizeFinancials facts ticker sic a b).fiscalYears.length =
        (rangeInts a b).length := by
      have := congrArg List.length hfy
      rw [List.length_map] at this
      exact this
    rw [hlen, rangeInts_length]
    omega
  · rw [hfy]
    exact rangeInts_pairwise a b

/-- A fact set with one recognized concept, used to instantiate C1. -/
def c1Facts : SECCompanyFacts :=
  { cik := 320193, entityName := "Example Corp",
    us_gaap := [("NetIncomeLoss",
      { label := "Net Income (Loss)", description := "",
        units := [("USD",
          [{ start_ := none, end_ := "2021-09-25", val := 5, accn := "a",
             fy := 2021, fp := "FY", form := "10-K",
             filed := "2021-10-29" }])] })] }

/-- C1 witness: the theorem applied over the range [2020, 2022]. -/
theorem claim_C1_year_sequence_witness :
    ((normalizeFinancials c1Facts "" none 2020 2022).fiscalYears.map
      (fun fy => fy.year)) = rangeInts 2020 2022 ∧
    ((normalizeFinancials c1Facts "" none 2020 2022).fiscalYears.length :
      Int) = 2022 - 2020 + 1 := by
  obtain ⟨h1, h2, h3⟩ :=
    claim_C1_year_sequence c1Facts "" none 2020 2022 (by decide)
  exact ⟨h1, h2⟩

/-! ### Observation-filter invariance of the Normalizer -/

/-- Drop, from every unit list of an entry, the observations that fail
the 10-K/fiscal-year-range filter.  Stating C5 as a comparison against
this filtered input expresses "two inputs differing only in filtered-out
observations". -/
def conceptFilter (s e : Int) (entry : String × ConceptData) :
    String × ConceptData :=
  (entry.1, { entry.2 with
    units := entry.2.units.map (fun u => (u.1, u.2.filter (relevantObs s e))) })

/-- The input with every filtered-out observation removed. -/
def filterIrrelevant (s e : Int) (facts : SECCompanyFacts) :
    SECCompanyFacts :=
  { facts with us_gaap := facts.us_gaap.map (conceptFilter s e) }

/-- A fact set whose single concept has one non-annual (10-Q)
observation. -/
def c5FactsA : SECCompanyFacts :=
  { cik := 1, entityName := "E",
    us_gaap := [("NetIncomeLoss",
      { label := "", description := "",
        units := [("USD",
          [{ start_ := none, end_ := "2020-03-31", val := 5, accn := "a",
             fy := 2020, fp := "Q1", form := "10-Q",
             filed := "2020-05-01" }])] })] }

/-- The same fact set with the 10-Q observation removed. -/
def c5FactsB : SECCompanyFacts :=
  { cik := 1, entityName := "E",
    us_gaap := [("NetIncomeLoss",
      { label := "", description := "",
        units := [("USD", [])] })] }

/-- C5 counterexample: the two inputs differ only in one observation
whose form is not the annual marker, yet their outputs differ — with the
observation present the concept key appears in `rawMetrics` with an empty
list, without it the key is absent. -/
theorem claim_C5_counterexample :
    (normalizeFinancials c5FactsA "" none 2020 2020).rawMetrics =
      [("NetIncomeLoss", [])] ∧
    (normalizeFinancials c5FactsB "" none 2020 2020).rawMetrics = [] ∧
    normalizeFinancials c5FactsA "" none 2020 2020 ≠
      normalizeFinancials c5FactsB "" none 2020 2020 := by
  refine ⟨rfl, rfl, fun h =>
    absurd (congrArg NormalizedFinancials.rawMetrics h) (by decide)⟩

/-- The `yearData` component of one concept step. -/
def processConceptYd (s e : Int) (yd : List (Int × FiscalYearData))
    (entry : String × ConceptData) : List (Int × FiscalYearData) :=
  match metricMapping entry.1 with
  | some name =>
      ((jsGet entry.2.units "USD").getD []).foldl (processValue s e name) yd
  | none => yd

/-- The `rawMetrics` component of one concept step. -/
def processConceptRaw (s e : Int) (raw : List (String × List MetricData))
    (entry : String × ConceptData) : List (String × List MetricData) :=
  let usdValues := (jsGet entry.2.units "USD").getD []
  if usdValues.length > 0 then
    jsSet raw entry.1 ((usdValues.filter (relevantObs s e)).map toMetricData)
  else raw

theorem foldl_processConcept_yd (s e : Int)
    (concepts : List (String × ConceptData)) (st : NState) :
    (concepts.foldl (processConcept s e) st).yd =
      concepts.foldl (processConceptYd s e) st.yd := by
  induction concepts generalizing st with
  | nil => rfl
  | cons c rest ih =>
    rw [List.foldl_cons, List.foldl_cons, ih]
    rfl

theorem foldl_processConcept_raw (s e : Int)
    (concepts : List (String × ConceptData)) (st : NState) :
    (concepts.foldl (processConcept s e) st).raw =
      concepts.foldl (processConceptRaw s e) st.raw := by
  induction concepts generalizing st with
  | nil => rfl
  | cons c rest ih =>
    rw [List.foldl_cons, List.foldl_cons, ih]
    rfl

theorem normalizeFinancials_fiscalYears (facts : SECCompanyFacts)
    (ticker : String) (sic : Option String) (s e : Int) :
    (normalizeFinancials facts ticker sic s e).fiscalYears =
      (List.insertionSort (fun x y => x.year ≤ y.year)
        (((facts.us_gaap.foldl (processConcept s e)
          ⟨[], (rangeInts s e).map (fun y => (y, emptyFY y))⟩).yd).map
            Prod.snd)).map finalizeFY := rfl

theorem normalizeFinancials_rawMetrics (facts : SECCompanyFacts)
    (ticker : String) (sic : Option String) (s e : Int) :
    (normalizeFinancials facts ticker sic s e).rawMetrics =
      (facts.us_gaap.foldl (processConcept s e)
        ⟨[], (rangeInts s e).map (fun y => (y, emptyFY y))⟩).raw := rfl

theorem jsGet_map_units (units : List (String × List RawObs)) (s e : Int) :
    jsGet (units.map (fun u => (u.1, u.2.filter (relevantObs s e)))) "USD" =
      (jsGet units "USD").map (List.filter (relevantObs s e)) := by
  induction units with
  | nil => rfl
  | cons u rest ih =>
    obtain ⟨k, l⟩ := u
    by_cases hk : k = "USD"
    · simp [jsGet, hk]
    · simp only [List.map_cons, jsGet, hk, if_neg hk]
      exact ih

theorem filter_self_idem {α : Type} (p : α → Bool) (l : List α) :
    (l.filter p).filter p = l.filter p := by
  induction l with
  | nil => rfl
  | cons a rest ih =>
    by_cases hp : p a
    · rw [List.filter_cons_of_pos hp, List.filter_cons_of_pos hp, ih]
    · rw [List.filter_cons_of_neg hp]
      exact ih

theorem processValue_filter (s e : Int) (name : MField)
    (obs : List RawObs) (yd : List (Int × FiscalYearData)) :
    (obs.filter (relevantObs s e)).foldl (processValue s e name) yd =
      obs.foldl (processValue s e name) yd := by
  induction obs generalizing yd with
  | nil => rfl
  | cons o rest ih =>
    by_cases ho : relevantObs s e o
    · rw [List.filter_cons_of_pos ho, List.foldl_cons, List.foldl_cons, ih]
    · have hpv : processValue s e name yd o = yd := by
        simp [processValue, ho]
      rw [List.filter_cons_of_neg (by simpa using ho), List.foldl_cons,
        hpv, ih]

theorem ydFold_filter_eq (s e : Int)
    (concepts : List (String × ConceptData))
    (yd : List (Int × FiscalYearData)) :
    (concepts.map (conceptFilter s e)).foldl (processConceptYd s e) yd =
      concepts.foldl (processConceptYd s e) yd := by
  induction concepts generalizing yd with
  | nil => rfl
  | cons c rest ih =>
    rw [List.map_cons, List.foldl_cons, List.foldl_cons, ih]
    congr 1
    unfold processConceptYd conceptFilter
    dsimp only
    rw [jsGet_map_units c.2.units s e]
    cases hm : metricMapping c.1
    · rfl
    · cases hg : jsGet c.2.units "USD"
      · rfl
      · dsimp only [Option.map_some, Option.getD_some]
        exact processValue_filter s e _ _ yd


theorem jsSet_fresh {κ ν : Type} [DecidableEq κ] (l : List (κ × ν))
    (k : κ) (v : ν) (h : k ∉ l.map Prod.fst) :
    jsSet l k v = l ++ [(k, v)] := by
  induction l with
  | nil => rfl
  | cons p rest ih =>
    obtain ⟨k', v'⟩ := p
    have hk : ¬ k' = k := fun hc => h (by rw [List.map_cons, hc]; exact List.mem_cons_self _ _)
    simp only [jsSet, if_neg hk, List.cons_append]
    congr 1
    exact ih (fun hc => h (by rw [List.map_cons]; exact List.mem_cons_of_mem _ hc))

theorem jsSet_keys_cases {κ ν : Type} [DecidableEq κ] (l : List (κ × ν))
    (k : κ) (v : ν) (k' : κ) (h : k' ∈ (jsSet l k v).map Prod.fst) :
    k' = k ∨ k' ∈ l.map Prod.fst := by
  by_cases hk : k ∈ l.map Prod.fst
  · rw [jsSet_keys l k v hk] at h
    exact Or.inr h
  · rw [jsSet_fresh l k v hk, List.map_append] at h
    rcases List.mem_append.mp h with h' | h'
    · exact Or.inr h'
    · simp at h'
      exact Or.inl h'

theorem keys_of_filter {κ ν : Type} (q : κ × ν → Bool)
    (l : List (κ × ν)) (k : κ) (h : k ∈ (l.filter q).map Prod.fst) :
    k ∈ l.map Prod.fst := by
  rw [List.mem_map] at h ⊢
  obtain ⟨p, hp, hk⟩ := h
  exact ⟨p, List.mem_of_mem_filter hp, hk⟩

theorem processConceptRaw_keys (s e : Int)
    (raw : List (String × List MetricData)) (c : String × ConceptData)
    (k : String) (h : k ∈ (processConceptRaw s e raw c).map Prod.fst) :
    k = c.1 ∨ k ∈ raw.map Prod.fst := by
  unfold processConceptRaw at h
  dsimp only at h
  split_ifs at h with hlen
  · exact jsSet_keys_cases raw c.1 _ k h
  · exact Or.inr h

theorem processConceptRaw_filter (s e : Int)
    (raw : List (String × List MetricData)) (c : String × ConceptData)
    (hfresh : c.1 ∉ raw.map Prod.fst) :
    processConceptRaw s e (raw.filter (fun p => !p.2.isEmpty))
        (conceptFilter s e c) =
      (processConceptRaw s e raw c).filter (fun p => !p.2.isEmpty) := by
  have hfreshf : c.1 ∉ (raw.filter (fun p => !p.2.isEmpty)).map Prod.fst :=
    fun hc => hfresh (keys_of_filter _ raw c.1 hc)
  unfold processConceptRaw conceptFilter
  dsimp only
  rw [jsGet_map_units c.2.units s e]
  cases hg : jsGet c.2.units "USD" with
  | none => rfl
  | some l =>
    simp only [Option.map_some', Option.getD_some]
    rcases hl : l with _ | ⟨o, rest⟩
    · rfl
    · rw [← hl]
      have hlen : l.length > 0 := by rw [hl]; simp
      rw [if_pos hlen]
      rcases hlf : l.filter (relevantObs s e) with _ | ⟨o', rest'⟩
      · -- every observation filtered out: the original run stores the
        -- concept key with an empty list, which the final filter drops
        have hc : ¬ (([] : List RawObs).length > 0) := by simp
        rw [if_neg hc, List.map_nil, jsSet_fresh raw c.1 [] hfresh,
          List.filter_append]
        simp
      · have hidem : (o' :: rest').filter (relevantObs s e) =
            o' :: rest' := by
          have hi := filter_self_idem (relevantObs s e) l
          rw [hlf] at hi
          exact hi
        have hc : ((o' :: rest') : List RawObs).length > 0 := by simp
        rw [if_pos hc, hidem, jsSet_fresh raw c.1 _ hfresh,
          jsSet_fresh _ c.1 _ hfreshf, List.filter_append]
        congr 1

theorem rawFold_filter_eq (s e : Int)
    (concepts : List (String × ConceptData))
    (raw : List (String × List MetricData))
    (hnodup : (concepts.map Prod.fst).Nodup)
    (hdisj : ∀ k ∈ concepts.map Prod.fst, k ∉ raw.map Prod.fst) :
    (concepts.map (conceptFilter s e)).foldl (processConceptRaw s e)
        (raw.filter (fun p => !p.2.isEmpty)) =
      (concepts.foldl (processConceptRaw s e) raw).filter
        (fun p => !p.2.isEmpty) := by
  induction concepts generalizing raw with
  | nil => rfl
  | cons c rest ih =>
    rw [List.map_cons, List.foldl_cons, List.foldl_cons]
    have hfresh : c.1 ∉ raw.map Prod.fst :=
      hdisj c.1 (by rw [List.map_cons]; exact List.mem_cons_self _ _)
    rw [processConceptRaw_filter s e raw c hfresh]
    apply ih
    · rw [List.map_cons] at hnodup
      exact hnodup.of_cons
    · intro k hk
      intro hmem
      rcases processConceptRaw_keys s e raw c k hmem with hkc | hkraw
      · rw [List.map_cons] at hnodup
        rw [hkc] at hk
        exact (List.nodup_cons.mp hnodup).1 hk
      · exact hdisj k
          (by rw [List.map_cons]; exact List.mem_cons_of_mem _ hk) hkraw

/-- C5 (amended): an observation whose form is not the exact annual
marker, or whose fiscal year lies outside the range, never influences the
fiscal-year table, the identity fields, or the contents of any retained
raw-metric list; the only possible difference it makes is whether a
concept whose USD observations are all filtered out appears in
`rawMetrics` with an empty list rather than being absent.  Formally,
running the Normalizer on the input with all such observations removed
yields the same output except that empty `rawMetrics` entries are
dropped.  (The key-uniqueness hypothesis reflects that a JavaScript
object cannot carry duplicate concept keys.) -/
theorem claim_C5_filter_invariance (facts : SECCompanyFacts)
    (ticker : String) (sic : Option String) (s e : Int)
    (hnodup : (facts.us_gaap.map Prod.fst).Nodup) :
    (normalizeFinancials (filterIrrelevant s e facts) ticker sic s e).cik =
      (normalizeFinancials facts ticker sic s e).cik ∧
    (normalizeFinancials (filterIrrelevant s e facts) ticker sic s e).entityName =
      (normalizeFinancials facts ticker sic s e).entityName ∧
    (normalizeFinancials (filterIrrelevant s e facts) ticker sic s e).ticker =
      (normalizeFinancials facts ticker sic s e).ticker ∧
    (normalizeFinancials (filterIrrelevant s e facts) ticker sic s e).sicCode =
      (normalizeFinancials facts ticker sic s e).sicCode ∧
    (normalizeFinancials (filterIrrelevant s e facts) ticker sic s e).fiscalYears =
      (normalizeFinancials facts ticker sic s e).fiscalYears ∧
    (normalizeFinancials (filterIrrelevant s e facts) ticker sic s e).rawMetrics =
      (normalizeFinancials facts ticker sic s e).rawMetrics.filter
        (fun p => !p.2.isEmpty) := by
  refine ⟨rfl, rfl, rfl, rfl, ?_, ?_⟩
  · rw [normalizeFinancials_fiscalYears, normalizeFinancials_fiscalYears]
    have hyd : ((filterIrrelevant s e facts).us_gaap.foldl
        (processConcept s e)
        ⟨[], (rangeInts s e).map (fun y => (y, emptyFY y))⟩).yd =
        (facts.us_gaap.foldl (processConcept s e)
          ⟨[], (rangeInts s e).map (fun y => (y, emptyFY y))⟩).yd := by
      rw [foldl_processConcept_yd, foldl_processConcept_yd]
      exact ydFold_filter_eq s e facts.us_gaap _
    rw [hyd]
  · rw [normalizeFinancials_rawMetrics, normalizeFinancials_rawMetrics]
    rw [foldl_processConcept_raw, foldl_processConcept_raw]
    have h0 : (([] : List (String × List MetricData)).filter
        (fun p => !p.2.isEmpty)) = [] := rfl
    rw [← h0]
    exact rawFold_filter_eq s e facts.us_gaap [] hnodup (by simp)

/-- C5 witness: the amended theorem applied at `c5FactsA`. -/
theorem claim_C5_filter_invariance_witness :
    (normalizeFinancials (filterIrrelevant 2020 2020 c5FactsA) "" none
      2020 2020).fiscalYears =
      (normalizeFinancials c5FactsA "" none 2020 2020).fiscalYears ∧
    (normalizeFinancials (filterIrrelevant 2020 2020 c5FactsA) "" none
      2020 2020).rawMetrics =
      (normalizeFinancials c5FactsA "" none 2020 2020).rawMetrics.filter
        (fun p => !p.2.isEmpty) := by
  obtain ⟨_, _, _, _, h5, h6⟩ :=
    claim_C5_filter_invariance c5FactsA "" none 2020 2020 (by decide)
  exact ⟨h5, h6⟩
